import Mathlib

/-!
Shallow embedding of the chess core of `chess-genetic-ai`
(`src/chess/piece.rs`, `board.rs`, `move.rs`, `state.rs`, `game.rs`).

Conventions of the embedding:
* Rust `i8` coordinates are modelled as `Int`; the predicate `Position.inRange`
  records representability in `i8`.  Rust's `v as usize` cast (sign extension)
  is modelled by `toIdx`, i.e. `v mod 2^64`.
* Rust `usize` counters (`half_moves`, `full_moves`) are modelled as `Nat`
  with wrap-around `% 2^64` where the source increments them.
* Rust `/` on signed integers truncates toward zero; it is modelled by
  `Int.tdiv`.
* The field names `from`/`to` of the move structs are Lean keywords /
  awkward identifiers, so they are rendered `fromSq` / `toSq`.
* Bounded `for`-loops with `break` are rendered as structurally recursive
  functions with an explicit fuel argument equal to the loop bound.
-/

namespace ChessAI

/-- Rust `piece.rs` `Color`. -/
inductive Color where
  | White
  | Black
deriving DecidableEq

/-- Rust `Color::opposite`. -/
def Color.opposite : Color → Color
  | .White => .Black
  | .Black => .White

/-- Rust `piece.rs` `Type` (referred to as `PieceType` in `state.rs`);
`Type` is reserved in Lean. -/
inductive PieceType where
  | Pawn
  | Rook
  | Knight
  | Bishop
  | Queen
  | King
deriving DecidableEq

/-- Rust `Piece(pub Color, pub Type)`; the accessors `color()` and `kind()`
become the projections. -/
structure Piece where
  color : Color
  kind : PieceType
deriving DecidableEq

/-- Rust `board.rs` `Position(pub i8, pub i8)`. -/
structure Position where
  x : Int
  y : Int
deriving DecidableEq

/-- Rust `Position::is_valid`. -/
def Position.isValid (p : Position) : Bool :=
  decide (0 ≤ p.x) && decide (p.x < 8) && decide (0 ≤ p.y) && decide (p.y < 8)

/-- Representability of both coordinates in Rust `i8`. -/
def Position.inRange (p : Position) : Prop :=
  -128 ≤ p.x ∧ p.x < 128 ∧ -128 ≤ p.y ∧ p.y < 128

instance (p : Position) : Decidable p.inRange := by
  unfold Position.inRange; infer_instance

/-- Rust `move.rs` `CastlingRights`. -/
structure CastlingRights where
  white_king : Bool
  white_queen : Bool
  black_king : Bool
  black_queen : Bool
deriving DecidableEq

/-- Rust `CastlingRights::new`. -/
def CastlingRights.new : CastlingRights :=
  ⟨true, true, true, true⟩

/-- Rust `CastlingRights::disable_king_side`. -/
def CastlingRights.disable_king_side (r : CastlingRights) (c : Color) : CastlingRights :=
  match c with
  | .White => { r with white_king := false }
  | .Black => { r with black_king := false }

/-- Rust `CastlingRights::disable_queen_side`. -/
def CastlingRights.disable_queen_side (r : CastlingRights) (c : Color) : CastlingRights :=
  match c with
  | .White => { r with white_queen := false }
  | .Black => { r with black_queen := false }

/-- Rust `CastlingRights::disable_both_sides`. -/
def CastlingRights.disable_both_sides (r : CastlingRights) (c : Color) : CastlingRights :=
  match c with
  | .White => { r with white_king := false, white_queen := false }
  | .Black => { r with black_king := false, black_queen := false }

/-- Rust `move.rs` `StandardMove`. -/
structure StandardMove where
  fromSq : Position
  toSq : Position
deriving DecidableEq

/-- Rust `move.rs` `PawnDoubleAdvanceMove`. -/
structure PawnDoubleAdvanceMove where
  fromSq : Position
  toSq : Position
deriving DecidableEq

/-- Rust `move.rs` `PawnEnPassantMove`. -/
structure PawnEnPassantMove where
  fromSq : Position
  toSq : Position
deriving DecidableEq

/-- Rust `move.rs` `PawnPromotionMove`. -/
structure PawnPromotionMove where
  pawn : StandardMove
  promotion : Piece
deriving DecidableEq

/-- Rust `move.rs` `CastlingMove` (used by `state.rs`). -/
inductive CastlingMove where
  | WhiteKing
  | WhiteQueen
  | BlackKing
  | BlackQueen
deriving DecidableEq

/-- Rust `move.rs` `Move`. -/
inductive Move where
  | Standard (m : StandardMove)
  | PawnDoubleAdvance (m : PawnDoubleAdvanceMove)
  | PawnEnPassant (m : PawnEnPassantMove)
  | PawnPromotion (m : PawnPromotionMove)
  | Castling (m : CastlingMove)
deriving DecidableEq

/-- Rust `Move::all_pawn_promotions`. -/
def Move.all_pawn_promotions (pawn : StandardMove) (color : Color) : List Move :=
  [ Move.PawnPromotion ⟨pawn, ⟨color, .Rook⟩⟩,
    Move.PawnPromotion ⟨pawn, ⟨color, .Knight⟩⟩,
    Move.PawnPromotion ⟨pawn, ⟨color, .Bishop⟩⟩,
    Move.PawnPromotion ⟨pawn, ⟨color, .Queen⟩⟩ ]

/-- Rust `board.rs` `Board([[Option<Piece>; 8]; 8])`.  Rust's type guarantees
the 8×8 shape; in the embedding the shape is the predicate `Board.WF`. -/
structure Board where
  rows : List (List (Option Piece))
deriving DecidableEq

/-- The Rust array shape `[[Option<Piece>; 8]; 8]`. -/
def Board.WF (b : Board) : Prop :=
  b.rows.length = 8 ∧ ∀ r ∈ b.rows, r.length = 8

instance (b : Board) : Decidable b.WF := by
  unfold Board.WF; infer_instance

/-- Rust `v as usize` applied to an `i8` value `v`: sign extension, i.e.
`v` modulo `2^64`. -/
def toIdx (v : Int) : Nat :=
  (v % (18446744073709551616 : Int)).toNat

/-- Rust `Board::get_piece`:
`self.0.get(x as usize).and_then(|row| row.get(y as usize)).unwrap_or(&None)`. -/
def Board.get_piece (b : Board) (p : Position) : Option Piece :=
  ((b.rows[toIdx p.x]?).bind fun row => row[toIdx p.y]?).getD none

/-- Rust `Board::set_piece`: writes through
`self.0.get_mut(x as usize).and_then(|row| row.get_mut(y as usize))`;
an out-of-bounds inner index leaves the row unchanged (`List.set` out of
range is the identity), matching the failed `get_mut`. -/
def Board.set_piece (b : Board) (p : Position) (piece : Option Piece) : Board :=
  match b.rows[toIdx p.x]? with
  | none => b
  | some row => ⟨b.rows.set (toIdx p.x) (row.set (toIdx p.y) piece)⟩

/-- Rust `Board::is_position_empty`. -/
def Board.is_position_empty (b : Board) (p : Position) : Bool :=
  (b.get_piece p).isNone

/-- Rust `Board::is_position_piece`. -/
def Board.is_position_piece (b : Board) (p : Position) (piece : Piece) : Bool :=
  match b.get_piece p with
  | some got => decide (got = piece)
  | none => false

/-- Rust `Board::is_position_color`. -/
def Board.is_position_color (b : Board) (p : Position) (c : Color) : Bool :=
  match b.get_piece p with
  | some piece => decide (piece.color = c)
  | none => false

/-- Rust `Board::is_position_empty_or_color`. -/
def Board.is_position_empty_or_color (b : Board) (p : Position) (c : Color) : Bool :=
  b.is_position_empty p || b.is_position_color p c

/-- Rust `Board::is_position_in_check_by_pawn`. -/
def Board.is_position_in_check_by_pawn (b : Board) (p : Position) (opponent : Color) : Bool :=
  let rank : Int :=
    match opponent with
    | .White => p.x - 1
    | .Black => p.x + 1
  [Position.mk rank (p.y - 1), Position.mk rank (p.y + 1)].any fun q =>
    match b.get_piece q with
    | some piece => decide (piece.kind = .Pawn) && decide (piece.color = opponent)
    | none => false

/-- Inner loop of `is_position_in_check_by_rook_or_queen` for one direction:
`for i in 1..8 { ... }` with the source's `continue`/`return`/`break`. -/
def Board.rq_ray (b : Board) (opponent : Color) (x y dx dy : Int) : Nat → Int → Bool
  | 0, _ => false
  | fuel + 1, i =>
    let pos : Position := ⟨x + i * dx, y + i * dy⟩
    if pos.isValid then
      match b.get_piece pos with
      | none => b.rq_ray opponent x y dx dy fuel (i + 1)
      | some ⟨c, .Rook⟩ => decide (c = opponent)
      | some ⟨c, .Queen⟩ => decide (c = opponent)
      | some _ => false
    else false

/-- Rust `Board::is_position_in_check_by_rook_or_queen`. -/
def Board.is_position_in_check_by_rook_or_queen (b : Board) (p : Position)
    (opponent : Color) : Bool :=
  [((1 : Int), (0 : Int)), (-1, 0), (0, 1), (0, -1)].any fun d =>
    b.rq_ray opponent p.x p.y d.1 d.2 7 1

/-- Rust `Board::is_position_in_check_by_knight`. -/
def Board.is_position_in_check_by_knight (b : Board) (p : Position) (opponent : Color) : Bool :=
  [ Position.mk (p.x + 1) (p.y - 2), Position.mk (p.x + 2) (p.y - 1),
    Position.mk (p.x + 2) (p.y + 1), Position.mk (p.x + 1) (p.y + 2),
    Position.mk (p.x - 1) (p.y + 2), Position.mk (p.x - 2) (p.y + 1),
    Position.mk (p.x - 2) (p.y - 1), Position.mk (p.x - 1) (p.y - 2) ].any fun q =>
    match b.get_piece q with
    | some piece => decide (piece.kind = .Knight) && decide (piece.color = opponent)
    | none => false

/-- Inner loop of `is_position_in_check_by_bishop_or_queen` for one direction. -/
def Board.bq_ray (b : Board) (opponent : Color) (x y dx dy : Int) : Nat → Int → Bool
  | 0, _ => false
  | fuel + 1, i =>
    let pos : Position := ⟨x + i * dx, y + i * dy⟩
    if pos.isValid then
      match b.get_piece pos with
      | none => b.bq_ray opponent x y dx dy fuel (i + 1)
      | some ⟨c, .Bishop⟩ => decide (c = opponent)
      | some ⟨c, .Queen⟩ => decide (c = opponent)
      | some _ => false
    else false

/-- Rust `Board::is_position_in_check_by_bishop_or_queen`. -/
def Board.is_position_in_check_by_bishop_or_queen (b : Board) (p : Position)
    (opponent : Color) : Bool :=
  [((1 : Int), (1 : Int)), (1, -1), (-1, 1), (-1, -1)].any fun d =>
    b.bq_ray opponent p.x p.y d.1 d.2 7 1

/-- Rust `Board::is_position_in_check_by_king`. -/
def Board.is_position_in_check_by_king (b : Board) (p : Position) (opponent : Color) : Bool :=
  [ Position.mk (p.x - 1) (p.y - 1), Position.mk (p.x - 1) p.y,
    Position.mk (p.x - 1) (p.y + 1), Position.mk (p.x + 1) (p.y - 1),
    Position.mk (p.x + 1) p.y, Position.mk (p.x + 1) (p.y + 1),
    Position.mk p.x (p.y - 1), Position.mk p.x (p.y + 1) ].any fun q =>
    match b.get_piece q with
    | some piece => decide (piece.kind = .King) && decide (piece.color = opponent)
    | none => false

/-- Rust `Board::is_position_in_check`. -/
def Board.is_position_in_check (b : Board) (p : Position) (opponent : Color) : Bool :=
  p.isValid &&
    (b.is_position_in_check_by_pawn p opponent ||
     b.is_position_in_check_by_rook_or_queen p opponent ||
     b.is_position_in_check_by_knight p opponent ||
     b.is_position_in_check_by_bishop_or_queen p opponent ||
     b.is_position_in_check_by_king p opponent)

/-- Rust `Board::new` (`INITIAL_BOARD`). -/
def Board.new : Board :=
  ⟨[ [ some ⟨.White, .Rook⟩, some ⟨.White, .Knight⟩, some ⟨.White, .Bishop⟩,
       some ⟨.White, .Queen⟩, some ⟨.White, .King⟩, some ⟨.White, .Bishop⟩,
       some ⟨.White, .Knight⟩, some ⟨.White, .Rook⟩ ],
     [ some ⟨.White, .Pawn⟩, some ⟨.White, .Pawn⟩, some ⟨.White, .Pawn⟩,
       some ⟨.White, .Pawn⟩, some ⟨.White, .Pawn⟩, some ⟨.White, .Pawn⟩,
       some ⟨.White, .Pawn⟩, some ⟨.White, .Pawn⟩ ],
     [ none, none, none, none, none, none, none, none ],
     [ none, none, none, none, none, none, none, none ],
     [ none, none, none, none, none, none, none, none ],
     [ none, none, none, none, none, none, none, none ],
     [ some ⟨.Black, .Pawn⟩, some ⟨.Black, .Pawn⟩, some ⟨.Black, .Pawn⟩,
       some ⟨.Black, .Pawn⟩, some ⟨.Black, .Pawn⟩, some ⟨.Black, .Pawn⟩,
       some ⟨.Black, .Pawn⟩, some ⟨.Black, .Pawn⟩ ],
     [ some ⟨.Black, .Rook⟩, some ⟨.Black, .Knight⟩, some ⟨.Black, .Bishop⟩,
       some ⟨.Black, .Queen⟩, some ⟨.Black, .King⟩, some ⟨.Black, .Bishop⟩,
       some ⟨.Black, .Knight⟩, some ⟨.Black, .Rook⟩ ] ]⟩

/-- Rust `state.rs` `State`. -/
structure State where
  board : Board
  player : Color
  opponent : Color
  en_passant : Option Position
  castling_rights : CastlingRights
  full_moves : Nat
  half_moves : Nat
  white_king_pos : Position
  black_king_pos : Position
deriving DecidableEq

/-- Rust `State::new`. -/
def State.new : State :=
  { board := Board.new
    player := .White
    opponent := .Black
    en_passant := none
    castling_rights := CastlingRights.new
    full_moves := 0
    half_moves := 0
    white_king_pos := ⟨0, 4⟩
    black_king_pos := ⟨7, 4⟩ }

/-- Rust `State::set_king_position`. -/
def State.set_king_position (s : State) (pos : Position) : State :=
  match s.player with
  | .White => { s with white_king_pos := pos }
  | .Black => { s with black_king_pos := pos }

/-- Rust `State::make_normal_move`: the castling-rights / king-position update
(reading the piece still standing on `from`) followed by the two board writes. -/
def State.make_normal_move (s : State) (m : StandardMove) : State :=
  let s1 :=
    match s.board.get_piece m.fromSq with
    | some ⟨c, .King⟩ =>
        ({ s with castling_rights := s.castling_rights.disable_both_sides c }).set_king_position
          m.toSq
    | some ⟨c, .Rook⟩ =>
        if m.fromSq.y = 0 then
          { s with castling_rights := s.castling_rights.disable_queen_side c }
        else if m.fromSq.y = 7 then
          { s with castling_rights := s.castling_rights.disable_king_side c }
        else s
    | _ => s
  { s1 with
    board := (s1.board.set_piece m.toSq (s1.board.get_piece m.fromSq)).set_piece m.fromSq none }

/-- Rust `State::make_double_advance_move`; the midpoint rank uses the Rust
`i8` division `/ 2`, which truncates toward zero (`Int.tdiv`). -/
def State.make_double_advance_move (s : State) (m : PawnDoubleAdvanceMove) : State :=
  let s1 := { s with en_passant := some ⟨Int.tdiv (m.fromSq.x + m.toSq.x) 2, m.fromSq.y⟩ }
  { s1 with
    board := (s1.board.set_piece m.toSq (s1.board.get_piece m.fromSq)).set_piece m.fromSq none }

/-- Rust `State::make_en_passant_move`. -/
def State.make_en_passant_move (s : State) (m : PawnEnPassantMove) : State :=
  { s with
    board :=
      ((s.board.set_piece m.toSq (s.board.get_piece m.fromSq)).set_piece m.fromSq
        none).set_piece ⟨m.fromSq.x, m.toSq.y⟩ none }

/-- Rust `State::make_promotion_move`: overwrite the pawn's square with the
promotion piece, then run the normal move. -/
def State.make_promotion_move (s : State) (m : PawnPromotionMove) : State :=
  let s1 := { s with board := s.board.set_piece m.pawn.fromSq (some m.promotion) }
  s1.make_normal_move m.pawn

/-- The `(color, king_start, pass_thru, king_end, rook_start)` table of
Rust `State::make_castling_move`. -/
def castleData (m : CastlingMove) : Color × Position × Position × Position × Position :=
  match m with
  | .WhiteKing => (.White, ⟨0, 4⟩, ⟨0, 5⟩, ⟨0, 6⟩, ⟨0, 7⟩)
  | .WhiteQueen => (.White, ⟨0, 4⟩, ⟨0, 3⟩, ⟨0, 2⟩, ⟨0, 0⟩)
  | .BlackKing => (.Black, ⟨7, 4⟩, ⟨7, 5⟩, ⟨7, 6⟩, ⟨7, 7⟩)
  | .BlackQueen => (.Black, ⟨7, 4⟩, ⟨7, 3⟩, ⟨7, 2⟩, ⟨7, 0⟩)

/-- Rust `State::make_castling_move`. -/
def State.make_castling_move (s : State) (m : CastlingMove) : State :=
  let (color, king_start, pass_thru, king_end, rook_start) := castleData m
  let s1 := s.set_king_position king_end
  let s2 := { s1 with castling_rights := s1.castling_rights.disable_both_sides color }
  { s2 with
    board :=
      (((s2.board.set_piece king_end (some ⟨color, .King⟩)).set_piece king_start
            none).set_piece pass_thru (some ⟨color, .Rook⟩)).set_piece rook_start none }

/-- Rust `State::make_move`: clear `en_passant`, dispatch on the move kind,
swap `player`/`opponent`, bump the ply counter (a `usize`, hence the
`% 2^64`), and recompute `full_moves = half_moves >> 1`. -/
def State.make_move (s : State) (mv : Move) : State :=
  let s0 := { s with en_passant := none }
  let s1 :=
    match mv with
    | .Standard m => s0.make_normal_move m
    | .PawnDoubleAdvance m => s0.make_double_advance_move m
    | .PawnEnPassant m => s0.make_en_passant_move m
    | .PawnPromotion m => s0.make_promotion_move m
    | .Castling m => s0.make_castling_move m
  let s2 := { s1 with player := s1.opponent, opponent := s1.player }
  let h := (s2.half_moves + 1) % 18446744073709551616
  { s2 with half_moves := h, full_moves := h / 2 }

/-- Rust `State::validate_pawn_normal_move`. -/
def State.validate_pawn_normal_move (s : State) (m : StandardMove) : Bool :=
  if m.fromSq.x = 0 ∨ m.fromSq.x = 7 then false
  else
    let fwd : Int :=
      match s.player with
      | .White => m.fromSq.x + 1
      | .Black => m.fromSq.x - 1
    let forward_one : Position := ⟨fwd, m.fromSq.y⟩
    let capture_left : Position := ⟨fwd, m.fromSq.y - 1⟩
    let capture_right : Position := ⟨fwd, m.fromSq.y + 1⟩
    (decide (m.toSq = forward_one) && s.board.is_position_empty m.toSq) ||
      ((decide (m.toSq = capture_left) || decide (m.toSq = capture_right)) &&
        s.board.is_position_color m.toSq s.opponent)

/-- Rust `State::validate_rook_normal_move`; the `for i in (start+1)..end`
emptiness scan is the `List.range` conjunction. -/
def State.validate_rook_normal_move (s : State) (m : StandardMove) : Bool :=
  if m.fromSq.x ≠ m.toSq.x ∧ m.fromSq.y ≠ m.toSq.y then false
  else
    let t :=
      if m.fromSq.x = m.toSq.x then
        (min m.fromSq.y m.toSq.y, max m.fromSq.y m.toSq.y, false)
      else
        (min m.fromSq.x m.toSq.x, max m.fromSq.x m.toSq.x, true)
    ((List.range (t.2.1 - t.1 - 1).toNat).all fun k =>
        let i : Int := t.1 + 1 + Int.ofNat k
        s.board.is_position_empty (if t.2.2 then ⟨i, m.fromSq.y⟩ else ⟨m.fromSq.x, i⟩)) &&
      s.board.is_position_empty_or_color m.toSq s.opponent

/-- Rust `State::validate_knight_normal_move`. -/
def State.validate_knight_normal_move (s : State) (m : StandardMove) : Bool :=
  let rank_diff := (m.fromSq.x - m.toSq.x).natAbs
  let file_diff := (m.fromSq.y - m.toSq.y).natAbs
  ((decide (file_diff = 1) && decide (rank_diff = 2)) ||
      (decide (file_diff = 2) && decide (rank_diff = 1))) &&
    s.board.is_position_empty_or_color m.toSq s.opponent

/-- The `while rank != to.0 && file != to.1` emptiness walk of
Rust `State::validate_bishop_normal_move`; fuel bounds the (in Rust,
wrap-around-bounded) iteration, and equals the diagonal length at the call
site, which covers every run the guard `diff_rank == diff_file` lets through
with `from ≠ to`. -/
def bishopWalkClear (b : Board) (toX toY rs fs : Int) : Nat → Int → Int → Bool
  | 0, _, _ => true
  | fuel + 1, rank, file =>
    if rank ≠ toX ∧ file ≠ toY then
      b.is_position_empty ⟨rank, file⟩ && bishopWalkClear b toX toY rs fs fuel (rank + rs) (file + fs)
    else true

/-- Rust `State::validate_bishop_normal_move`. -/
def State.validate_bishop_normal_move (s : State) (m : StandardMove) : Bool :=
  let diff_rank := (m.fromSq.x - m.toSq.x).natAbs
  let diff_file := (m.fromSq.y - m.toSq.y).natAbs
  if diff_rank ≠ diff_file then false
  else
    let rank_step : Int := if m.fromSq.x < m.toSq.x then 1 else -1
    let file_step : Int := if m.fromSq.y < m.toSq.y then 1 else -1
    bishopWalkClear s.board m.toSq.x m.toSq.y rank_step file_step diff_rank
        (m.fromSq.x + rank_step) (m.fromSq.y + file_step) &&
      s.board.is_position_empty_or_color m.toSq s.opponent

/-- Rust `State::validate_queen_normal_move`. -/
def State.validate_queen_normal_move (s : State) (m : StandardMove) : Bool :=
  s.validate_rook_normal_move m || s.validate_bishop_normal_move m

/-- Rust `State::validate_king_normal_move`. -/
def State.validate_king_normal_move (s : State) (m : StandardMove) : Bool :=
  decide ((m.fromSq.x - m.toSq.x).natAbs ≤ 1) &&
    decide ((m.fromSq.y - m.toSq.y).natAbs ≤ 1) &&
    s.board.is_position_empty_or_color m.toSq s.opponent

/-- The `match piece.kind()` dispatch block of Rust
`State::validate_normal_move`. -/
def State.validate_normal_kind (s : State) (m : StandardMove) (piece : Piece) : Bool :=
  match piece.kind with
  | .Pawn => s.validate_pawn_normal_move m
  | .Rook => s.validate_rook_normal_move m
  | .Knight => s.validate_knight_normal_move m
  | .Bishop => s.validate_bishop_normal_move m
  | .Queen => s.validate_queen_normal_move m
  | .King => s.validate_king_normal_move m

/-- Rust `State::validate_normal_move`. -/
def State.validate_normal_move (s : State) (m : StandardMove) : Bool :=
  match s.board.get_piece m.fromSq with
  | some piece =>
    if piece.color = s.player then
      match s.board.get_piece m.toSq with
      | some q => if q.color = s.player then false else s.validate_normal_kind m piece
      | none => s.validate_normal_kind m piece
    else false
  | none => false

/-- Rust `State::validate_double_advance_move`. -/
def State.validate_double_advance_move (s : State) (m : PawnDoubleAdvanceMove) : Bool :=
  let start_rank : Int :=
    match s.player with
    | .White => 1
    | .Black => 6
  let fwd : Int :=
    match s.player with
    | .White => 1
    | .Black => -1
  let pawn : Piece := ⟨s.player, .Pawn⟩
  let forward_one : Position := ⟨m.fromSq.x + fwd, m.fromSq.y⟩
  let forward_two : Position := ⟨m.fromSq.x + 2 * fwd, m.fromSq.y⟩
  decide (m.fromSq.x = start_rank) && decide (m.toSq = forward_two) &&
    s.board.is_position_piece m.fromSq pawn &&
    s.board.is_position_empty forward_one &&
    s.board.is_position_empty m.toSq

/-- Rust `State::validate_en_passant_move` (the `state.rs` version, which
compares files against the en-passant file). -/
def State.validate_en_passant_move (s : State) (m : PawnEnPassantMove) : Bool :=
  if !s.board.is_position_empty m.toSq ||
      !s.board.is_position_piece ⟨m.fromSq.x, m.toSq.y⟩ ⟨s.opponent, .Pawn⟩ then
    false
  else
    match s.board.get_piece m.fromSq with
    | some piece =>
      if piece = ⟨s.player, .Pawn⟩ then
        match s.en_passant with
        | some pos =>
          if m.toSq = pos then
            if m.fromSq.y ≠ pos.y + 1 ∧ m.fromSq.y ≠ pos.y - 1 then false
            else
              match s.player with
              | .White => decide (m.fromSq.x = pos.x - 1)
              | .Black => decide (m.fromSq.x = pos.x + 1)
          else false
        | none => false
      else false
    | none => false

/-- Rust `State::validate_promotion_move`. -/
def State.validate_promotion_move (s : State) (m : PawnPromotionMove) : Bool :=
  m.pawn.fromSq.isValid && m.pawn.toSq.isValid &&
    decide (m.pawn.fromSq ≠ m.pawn.toSq) &&
    decide (m.promotion.color = s.player) &&
    (match m.promotion.kind with
     | .Rook => true
     | .Knight => true
     | .Bishop => true
     | .Queen => true
     | _ => false) &&
    s.board.is_position_piece m.pawn.fromSq ⟨s.player, .Pawn⟩ &&
    s.validate_pawn_normal_move m.pawn

/-- Rust `State::validate_castling_move`. -/
def State.validate_castling_move (s : State) (m : CastlingMove) : Bool :=
  match m with
  | .WhiteKing =>
    decide (s.player = .White) && s.castling_rights.white_king &&
      s.board.is_position_piece ⟨0, 4⟩ ⟨.White, .King⟩ &&
      s.board.is_position_piece ⟨0, 7⟩ ⟨.White, .Rook⟩ &&
      s.board.is_position_empty ⟨0, 5⟩ &&
      s.board.is_position_empty ⟨0, 6⟩ &&
      !s.board.is_position_in_check ⟨0, 4⟩ .Black &&
      !s.board.is_position_in_check ⟨0, 5⟩ .Black &&
      !s.board.is_position_in_check ⟨0, 6⟩ .Black
  | .WhiteQueen =>
    decide (s.player = .White) && s.castling_rights.white_queen &&
      s.board.is_position_piece ⟨0, 4⟩ ⟨.White, .King⟩ &&
      s.board.is_position_piece ⟨0, 0⟩ ⟨.White, .Rook⟩ &&
      s.board.is_position_empty ⟨0, 3⟩ &&
      s.board.is_position_empty ⟨0, 2⟩ &&
      s.board.is_position_empty ⟨0, 1⟩ &&
      !s.board.is_position_in_check ⟨0, 4⟩ .Black &&
      !s.board.is_position_in_check ⟨0, 3⟩ .Black &&
      !s.board.is_position_in_check ⟨0, 2⟩ .Black
  | .BlackKing =>
    decide (s.player = .Black) && s.castling_rights.black_king &&
      s.board.is_position_piece ⟨7, 4⟩ ⟨.Black, .King⟩ &&
      s.board.is_position_piece ⟨7, 7⟩ ⟨.Black, .Rook⟩ &&
      s.board.is_position_empty ⟨7, 5⟩ &&
      s.board.is_position_empty ⟨7, 6⟩ &&
      !s.board.is_position_in_check ⟨7, 4⟩ .White &&
      !s.board.is_position_in_check ⟨7, 5⟩ .White &&
      !s.board.is_position_in_check ⟨7, 6⟩ .White
  | .BlackQueen =>
    decide (s.player = .Black) && s.castling_rights.black_queen &&
      s.board.is_position_piece ⟨7, 4⟩ ⟨.Black, .King⟩ &&
      s.board.is_position_piece ⟨7, 0⟩ ⟨.Black, .Rook⟩ &&
      s.board.is_position_empty ⟨7, 3⟩ &&
      s.board.is_position_empty ⟨7, 2⟩ &&
      s.board.is_position_empty ⟨7, 1⟩ &&
      !s.board.is_position_in_check ⟨7, 4⟩ .White &&
      !s.board.is_position_in_check ⟨7, 3⟩ .White &&
      !s.board.is_position_in_check ⟨7, 2⟩ .White

/-- Rust `State::validate_move`: the pseudo-legality dispatch, then the
make-and-own-king-safety test on a copy. -/
def State.validate_move (s : State) (mv : Move) : Bool :=
  let pseudo :=
    match mv with
    | .Standard m => s.validate_normal_move m
    | .PawnDoubleAdvance m => s.validate_double_advance_move m
    | .PawnEnPassant m => s.validate_en_passant_move m
    | .PawnPromotion m => s.validate_promotion_move m
    | .Castling m => s.validate_castling_move m
  if pseudo then
    let new_state := s.make_move mv
    let king_pos :=
      match s.player with
      | .White => new_state.white_king_pos
      | .Black => new_state.black_king_pos
    !new_state.board.is_position_in_check king_pos new_state.player
  else false

/-- Modelled from the spec: `Board::for_each` is called by
`State::gen_potential_legal_moves` but is absent from `src/` (only its caller
survives).  The spec (§3, §4.4) only requires visiting each square exactly
once, in unspecified order; the model iterates the 64 squares in row-major
order. -/
def allPositions : List Position :=
  (List.range 8).flatMap fun x => (List.range 8).map fun y => Position.mk (Nat.cast x) (Nat.cast y)

/-- Rust `State::gen_pawn_moves`. -/
def State.gen_pawn_moves (s : State) (pos : Position) : List Move :=
  let d :=
    match s.player with
    | .White => ((1 : Int), (7 : Int), (1 : Int))
    | .Black => ((6 : Int), (0 : Int), (-1 : Int))
  let starting_rank := d.1
  let promotion_rank := d.2.1
  let fwd := d.2.2
  let forward_one : Position := ⟨pos.x + fwd, pos.y⟩
  let forward_two : Position := ⟨pos.x + 2 * fwd, pos.y⟩
  let capture_left : Position := ⟨pos.x + fwd, pos.y - 1⟩
  let capture_right : Position := ⟨pos.x + fwd, pos.y + 1⟩
  (if s.board.is_position_empty forward_one then
      if forward_one.x = promotion_rank then Move.all_pawn_promotions ⟨pos, forward_one⟩ s.player
      else
        Move.Standard ⟨pos, forward_one⟩ ::
          (if decide (pos.x = starting_rank) && s.board.is_position_empty forward_two then
            [Move.PawnDoubleAdvance ⟨pos, forward_two⟩]
          else [])
    else []) ++
  (if s.board.is_position_color capture_left s.opponent then
      if capture_left.x = promotion_rank then Move.all_pawn_promotions ⟨pos, capture_left⟩ s.player
      else [Move.Standard ⟨pos, capture_left⟩]
    else if (match s.en_passant with
             | some ep => decide (ep = capture_left)
             | none => false) then
      [Move.PawnEnPassant ⟨pos, capture_left⟩]
    else []) ++
  (if s.board.is_position_color capture_right s.opponent then
      if capture_right.x = promotion_rank then
        Move.all_pawn_promotions ⟨pos, capture_right⟩ s.player
      else [Move.Standard ⟨pos, capture_right⟩]
    else if (match s.en_passant with
             | some ep => decide (ep = capture_right)
             | none => false) then
      [Move.PawnEnPassant ⟨pos, capture_right⟩]
    else [])

/-- One direction of the `for i in 1..8` sliding loops of
Rust `State::gen_rook_moves` / `gen_bishop_moves`. -/
def State.slide_ray (s : State) (pos : Position) (dx dy : Int) : Nat → Int → List Move
  | 0, _ => []
  | fuel + 1, i =>
    let q : Position := ⟨pos.x + i * dx, pos.y + i * dy⟩
    if q.isValid then
      match s.board.get_piece q with
      | none => Move.Standard ⟨pos, q⟩ :: s.slide_ray pos dx dy fuel (i + 1)
      | some piece => if piece.color = s.opponent then [Move.Standard ⟨pos, q⟩] else []
    else []

/-- Rust `State::gen_rook_moves`. -/
def State.gen_rook_moves (s : State) (pos : Position) : List Move :=
  [((1 : Int), (0 : Int)), (-1, 0), (0, 1), (0, -1)].flatMap fun d =>
    s.slide_ray pos d.1 d.2 7 1

/-- Rust `State::gen_knight_moves`. -/
def State.gen_knight_moves (s : State) (pos : Position) : List Move :=
  [ Position.mk (pos.x + 1) (pos.y - 2), Position.mk (pos.x + 2) (pos.y - 1),
    Position.mk (pos.x + 2) (pos.y + 1), Position.mk (pos.x + 1) (pos.y + 2),
    Position.mk (pos.x - 1) (pos.y + 2), Position.mk (pos.x - 2) (pos.y + 1),
    Position.mk (pos.x - 2) (pos.y - 1), Position.mk (pos.x - 1) (pos.y - 2) ].flatMap fun q =>
    if !q.isValid || s.board.is_position_color q s.player then []
    else [Move.Standard ⟨pos, q⟩]

/-- Rust `State::gen_bishop_moves`. -/
def State.gen_bishop_moves (s : State) (pos : Position) : List Move :=
  [((1 : Int), (1 : Int)), (1, -1), (-1, 1), (-1, -1)].flatMap fun d =>
    s.slide_ray pos d.1 d.2 7 1

/-- Rust `State::gen_queen_moves`. -/
def State.gen_queen_moves (s : State) (pos : Position) : List Move :=
  s.gen_rook_moves pos ++ s.gen_bishop_moves pos

/-- Rust `State::gen_king_moves` (including the four castling probes, which
the source always runs for both colors; `validate_castling_move` filters by
`player`). -/
def State.gen_king_moves (s : State) (pos : Position) : List Move :=
  ([ Position.mk (pos.x + 1) (pos.y - 1), Position.mk (pos.x + 1) pos.y,
     Position.mk (pos.x + 1) (pos.y + 1), Position.mk pos.x (pos.y - 1),
     Position.mk pos.x (pos.y + 1), Position.mk (pos.x - 1) (pos.y - 1),
     Position.mk (pos.x - 1) pos.y, Position.mk (pos.x - 1) (pos.y + 1) ].flatMap fun q =>
    if !q.isValid || s.board.is_position_color q s.player then []
    else [Move.Standard ⟨pos, q⟩]) ++
  (if s.validate_castling_move .WhiteKing then [Move.Castling .WhiteKing] else []) ++
  (if s.validate_castling_move .WhiteQueen then [Move.Castling .WhiteQueen] else []) ++
  (if s.validate_castling_move .BlackKing then [Move.Castling .BlackKing] else []) ++
  (if s.validate_castling_move .BlackQueen then [Move.Castling .BlackQueen] else [])

/-- Rust `State::gen_potential_legal_moves`. -/
def State.gen_potential_legal_moves (s : State) : List Move :=
  allPositions.flatMap fun pos =>
    match s.board.get_piece pos with
    | some piece =>
      if piece.color = s.player then
        match piece.kind with
        | .Pawn => s.gen_pawn_moves pos
        | .Rook => s.gen_rook_moves pos
        | .Knight => s.gen_knight_moves pos
        | .Bishop => s.gen_bishop_moves pos
        | .Queen => s.gen_queen_moves pos
        | .King => s.gen_king_moves pos
      else []
    | none => []

/-- Rust `State::gen_legal_moves`: filter the pseudo-legal moves by making
each one on a copy and rejecting those that leave the mover's (tracked)
king attacked. -/
def State.gen_legal_moves (s : State) : List (Move × State) :=
  s.gen_potential_legal_moves.filterMap fun mv =>
    let new_state := s.make_move mv
    let king_pos :=
      match s.player with
      | .White => new_state.white_king_pos
      | .Black => new_state.black_king_pos
    if new_state.board.is_position_in_check king_pos new_state.player then none
    else some (mv, new_state)

/-- Rust `game.rs` `CastleMove`. -/
inductive CastleMove where
  | WhiteKingSide
  | WhiteQueenSide
  | BlackKingSide
  | BlackQueenSide
deriving DecidableEq

/-- Rust `game.rs` `Game`. -/
structure Game where
  board : Board
  turn : Color
  en_passant : Option Position
  castling_rights : CastlingRights
  full_moves : Nat
  half_moves : Nat
deriving DecidableEq

/-- The `(me, opponent, king_from, pass_thru, king_to, rook_from)` table of
Rust `Game::validate_castle_move`. -/
def gameCastleData (m : CastleMove) :
    Color × Color × Position × Position × Position × Position :=
  match m with
  | .WhiteKingSide => (.White, .Black, ⟨0, 4⟩, ⟨0, 5⟩, ⟨0, 6⟩, ⟨0, 7⟩)
  | .WhiteQueenSide => (.White, .Black, ⟨0, 4⟩, ⟨0, 3⟩, ⟨0, 2⟩, ⟨0, 0⟩)
  | .BlackKingSide => (.Black, .White, ⟨7, 4⟩, ⟨7, 5⟩, ⟨7, 6⟩, ⟨7, 7⟩)
  | .BlackQueenSide => (.Black, .White, ⟨7, 4⟩, ⟨7, 3⟩, ⟨7, 2⟩, ⟨7, 0⟩)

/-- Rust `Game::validate_castle_move`, verbatim: it tests
`self.castling_rights.white_king` for every wing, never reads the bound
`opponent`, always passes `Color::Black` as the attacker, and checks only
`pass_thru` and `king_to` for emptiness. -/
def Game.validate_castle_move (g : Game) (mv : CastleMove) : Bool :=
  let d := gameCastleData mv
  let me := d.1
  let king_from := d.2.2.1
  let pass_thru := d.2.2.2.1
  let king_to := d.2.2.2.2.1
  let rook_from := d.2.2.2.2.2
  g.castling_rights.white_king && decide (g.turn = me) &&
    g.board.is_position_piece king_from ⟨me, .King⟩ &&
    g.board.is_position_piece rook_from ⟨me, .Rook⟩ &&
    g.board.is_position_empty pass_thru &&
    g.board.is_position_empty king_to &&
    !g.board.is_position_in_check king_from .Black &&
    !g.board.is_position_in_check pass_thru .Black &&
    !g.board.is_position_in_check king_to .Black

/-! ### Specification-side definitions

Definitions in this block are written from the wording of the specification
and of the claims (not from the source); they are compared against the
source-derived functions above. -/

/-- Spec `MASK[sq]` table (claim C3): the four corner squares clear the
corresponding rook right, the two king-start squares clear both rights of
that color, every other square has the all-ones mask. -/
def maskRights (r : CastlingRights) (sq : Position) : CastlingRights :=
  if sq = ⟨0, 0⟩ then { r with white_queen := false }
  else if sq = ⟨0, 7⟩ then { r with white_king := false }
  else if sq = ⟨7, 0⟩ then { r with black_queen := false }
  else if sq = ⟨7, 7⟩ then { r with black_king := false }
  else if sq = ⟨0, 4⟩ then { r with white_king := false, white_queen := false }
  else if sq = ⟨7, 4⟩ then { r with black_king := false, black_queen := false }
  else r

/-- The castling-rights update rule the code actually implements for one
moved piece: a king clears both rights of its color; a rook moving from
file 0 (resp. 7, and not 0) clears the queen-side (resp. king-side) right of
its color; anything else, including any capture, leaves rights unchanged. -/
def rightsUpdateOfPiece (piece : Option Piece) (file : Int) (r : CastlingRights) :
    CastlingRights :=
  match piece with
  | some ⟨c, .King⟩ => r.disable_both_sides c
  | some ⟨c, .Rook⟩ =>
    if file = 0 then r.disable_queen_side c
    else if file = 7 then r.disable_king_side c
    else r
  | _ => r

/-- Castling rights after `State::make_move`, per move kind (the amended
claim C3).  For a promotion the overwritten from-square is read, since the
code overwrites it with the promotion piece before the normal-move update. -/
def rightsAfter (s : State) (mv : Move) : CastlingRights :=
  match mv with
  | .Standard m => rightsUpdateOfPiece (s.board.get_piece m.fromSq) m.fromSq.y s.castling_rights
  | .PawnDoubleAdvance _ => s.castling_rights
  | .PawnEnPassant _ => s.castling_rights
  | .PawnPromotion m =>
    rightsUpdateOfPiece
      ((s.board.set_piece m.pawn.fromSq (some m.promotion)).get_piece m.pawn.fromSq)
      m.pawn.fromSq.y s.castling_rights
  | .Castling m => s.castling_rights.disable_both_sides (castleData m).1

/-- The en-passant target after a move (claim C7): `Some` of the square
midway between `from` and `to` (same file as `from`, rank the truncated
average) for a pawn double push, `None` for every other kind. -/
def epTarget (mv : Move) : Option Position :=
  match mv with
  | .PawnDoubleAdvance m => some ⟨Int.tdiv (m.fromSq.x + m.toSq.x) 2, m.fromSq.y⟩
  | _ => none

/-- The castling right belonging to a castling move's side and wing
(claim C4). -/
def castlingRightFor (r : CastlingRights) : CastlingMove → Bool
  | .WhiteKing => r.white_king
  | .WhiteQueen => r.white_queen
  | .BlackKing => r.black_king
  | .BlackQueen => r.black_queen

/-- The squares between the king and the castling rook (claim C4). -/
def castleBetweenSquares : CastlingMove → List Position
  | .WhiteKing => [⟨0, 5⟩, ⟨0, 6⟩]
  | .WhiteQueen => [⟨0, 1⟩, ⟨0, 2⟩, ⟨0, 3⟩]
  | .BlackKing => [⟨7, 5⟩, ⟨7, 6⟩]
  | .BlackQueen => [⟨7, 1⟩, ⟨7, 2⟩, ⟨7, 3⟩]

/-- The king's from-square, passed-through square and to-square (claim C4). -/
def castleKingPath : CastlingMove → List Position
  | .WhiteKing => [⟨0, 4⟩, ⟨0, 5⟩, ⟨0, 6⟩]
  | .WhiteQueen => [⟨0, 4⟩, ⟨0, 3⟩, ⟨0, 2⟩]
  | .BlackKing => [⟨7, 4⟩, ⟨7, 5⟩, ⟨7, 6⟩]
  | .BlackQueen => [⟨7, 4⟩, ⟨7, 3⟩, ⟨7, 2⟩]

/-- The side making a castling move. -/
def castleSide : CastlingMove → Color
  | .WhiteKing => .White
  | .WhiteQueen => .White
  | .BlackKing => .Black
  | .BlackQueen => .Black

/-- The tracked king-position field of the given color. -/
def moverKingPos (mover : Color) (s : State) : Position :=
  match mover with
  | .White => s.white_king_pos
  | .Black => s.black_king_pos

/-- King-position tracking is consistent with the board (claim C9): each
tracked field reads back its color's king, and every square of the board
holding a king is the tracked square of that color. -/
def kingsOK (s : State) : Prop :=
  s.board.get_piece s.white_king_pos = some ⟨.White, .King⟩ ∧
  s.board.get_piece s.black_king_pos = some ⟨.Black, .King⟩ ∧
  ∀ p ∈ allPositions,
    (s.board.get_piece p = some ⟨.White, .King⟩ → p = s.white_king_pos) ∧
    (s.board.get_piece p = some ⟨.Black, .King⟩ → p = s.black_king_pos)

instance (s : State) : Decidable (kingsOK s) := by
  unfold kingsOK; infer_instance

/-- Whether some king (of either color) stands on the square. -/
def isKingAt (b : Board) (p : Position) : Bool :=
  match b.get_piece p with
  | some ⟨_, .King⟩ => true
  | _ => false

/-- The positions mentioned by a move. -/
def Move.positions : Move → List Position
  | .Standard m => [m.fromSq, m.toSq]
  | .PawnDoubleAdvance m => [m.fromSq, m.toSq]
  | .PawnEnPassant m => [m.fromSq, m.toSq]
  | .PawnPromotion m => [m.pawn.fromSq, m.pawn.toSq]
  | .Castling _ => []

/-- All coordinates of the move are `i8`-representable, as they are in Rust. -/
def Move.inRange (mv : Move) : Prop :=
  ∀ p ∈ mv.positions, p.inRange

instance (mv : Move) : Decidable mv.inRange := by
  unfold Move.inRange; infer_instance

/-- Destination restrictions of the amended claim C9: the move does not
capture a king, and a king's own move stays on the board. -/
def moveDestSafe (s : State) (mv : Move) : Prop :=
  match mv with
  | .Standard m =>
    isKingAt s.board m.toSq = false ∧ (isKingAt s.board m.fromSq = true → m.toSq.isValid = true)
  | .PawnPromotion m => isKingAt s.board m.pawn.toSq = false
  | _ => True

instance (s : State) (mv : Move) : Decidable (moveDestSafe s mv) := by
  unfold moveDestSafe
  cases mv <;> infer_instance

/-- An empty 8×8 board, used to build the concrete positions below. -/
def emptyBoard : Board :=
  ⟨List.replicate 8 (List.replicate 8 none)⟩

/-! ### Concrete positions used as counterexamples and witnesses -/

/-- The double push e2-e4 (rank-file coordinates `(1,4)` to `(3,4)`). -/
def e2e4 : Move :=
  .PawnDoubleAdvance ⟨⟨1, 4⟩, ⟨3, 4⟩⟩

/-- Black to move; a black bishop on c3 can capture the untouched white rook
on h1.  Kings on e1/e8, all castling rights set. -/
def c3_state : State :=
  { board :=
      (((emptyBoard.set_piece ⟨0, 7⟩ (some ⟨.White, .Rook⟩)).set_piece ⟨2, 5⟩
            (some ⟨.Black, .Bishop⟩)).set_piece ⟨0, 4⟩
          (some ⟨.White, .King⟩)).set_piece ⟨7, 4⟩ (some ⟨.Black, .King⟩)
    player := .Black
    opponent := .White
    en_passant := none
    castling_rights := CastlingRights.new
    full_moves := 0
    half_moves := 0
    white_king_pos := ⟨0, 4⟩
    black_king_pos := ⟨7, 4⟩ }

/-- The capture Bxh1 from `c3_state`. -/
def c3_move : Move :=
  .Standard ⟨⟨2, 5⟩, ⟨0, 7⟩⟩

/-- A `Game` in which white's queen-side castling right is cleared and b1 is
occupied, yet d1 and c1 are free and nothing is attacked. -/
def c4_game : Game :=
  { board :=
      (((emptyBoard.set_piece ⟨0, 4⟩ (some ⟨.White, .King⟩)).set_piece ⟨0, 0⟩
            (some ⟨.White, .Rook⟩)).set_piece ⟨0, 1⟩
          (some ⟨.White, .Knight⟩)).set_piece ⟨7, 7⟩ (some ⟨.Black, .King⟩)
    turn := .White
    en_passant := none
    castling_rights := ⟨true, false, true, true⟩
    full_moves := 0
    half_moves := 0 }

/-- A position in which white may castle king-side: king e1, rook h1,
black king far away, all rights set. -/
def c4_state : State :=
  { board :=
      ((emptyBoard.set_piece ⟨0, 4⟩ (some ⟨.White, .King⟩)).set_piece ⟨0, 7⟩
          (some ⟨.White, .Rook⟩)).set_piece ⟨7, 4⟩ (some ⟨.Black, .King⟩)
    player := .White
    opponent := .Black
    en_passant := none
    castling_rights := CastlingRights.new
    full_moves := 0
    half_moves := 0
    white_king_pos := ⟨0, 4⟩
    black_king_pos := ⟨7, 4⟩ }

/-- White pawn on e5, black pawn on d5 that just double-pushed
(en-passant target d6). -/
def c8_state : State :=
  { board :=
      (((emptyBoard.set_piece ⟨4, 4⟩ (some ⟨.White, .Pawn⟩)).set_piece ⟨4, 3⟩
            (some ⟨.Black, .Pawn⟩)).set_piece ⟨0, 4⟩
          (some ⟨.White, .King⟩)).set_piece ⟨7, 4⟩ (some ⟨.Black, .King⟩)
    player := .White
    opponent := .Black
    en_passant := some ⟨5, 3⟩
    castling_rights := CastlingRights.new
    full_moves := 0
    half_moves := 0
    white_king_pos := ⟨0, 4⟩
    black_king_pos := ⟨7, 4⟩ }

/-- The en-passant capture exd6 from `c8_state`. -/
def c8_move : PawnEnPassantMove :=
  ⟨⟨4, 4⟩, ⟨5, 3⟩⟩

/-- White rook on e5 can capture the black king on a5: the move passes
`validate_move`, after which the black king-position field points at a
white rook. -/
def c9_capture_state : State :=
  { board :=
      ((emptyBoard.set_piece ⟨0, 0⟩ (some ⟨.White, .King⟩)).set_piece ⟨4, 4⟩
          (some ⟨.White, .Rook⟩)).set_piece ⟨4, 0⟩ (some ⟨.Black, .King⟩)
    player := .White
    opponent := .Black
    en_passant := none
    castling_rights := CastlingRights.new
    full_moves := 0
    half_moves := 0
    white_king_pos := ⟨0, 0⟩
    black_king_pos := ⟨4, 0⟩ }

/-- The king capture Rxa5 from `c9_capture_state`. -/
def c9_capture_move : Move :=
  .Standard ⟨⟨4, 4⟩, ⟨4, 0⟩⟩

/-- Kings only; the white king on e1 may step to the off-board square
`(-1,4)`, which `validate_move` accepts. -/
def c9_offboard_state : State :=
  { board :=
      (emptyBoard.set_piece ⟨0, 4⟩ (some ⟨.White, .King⟩)).set_piece ⟨7, 4⟩
        (some ⟨.Black, .King⟩)
    player := .White
    opponent := .Black
    en_passant := none
    castling_rights := CastlingRights.new
    full_moves := 0
    half_moves := 0
    white_king_pos := ⟨0, 4⟩
    black_king_pos := ⟨7, 4⟩ }

/-- The off-board king step from `c9_offboard_state`. -/
def c9_offboard_move : Move :=
  .Standard ⟨⟨0, 4⟩, ⟨-1, 4⟩⟩

/-! ### Basic lemmas about indexing and the board primitives -/

theorem toIdx_of_lt {v : Int} (h0 : 0 ≤ v) (h8 : v < 8) : toIdx v = v.toNat := by
  unfold toIdx; omega

theorem toIdx_lt_8 {v : Int} (h0 : 0 ≤ v) (h8 : v < 8) : toIdx v < 8 := by
  unfold toIdx; omega

theorem toIdx_ge_8 {v : Int} (hlo : -128 ≤ v) (hhi : v < 128) (h : ¬(0 ≤ v ∧ v < 8)) :
    8 ≤ toIdx v := by
  unfold toIdx; omega

theorem toIdx_inj {v w : Int} (hv0 : 0 ≤ v) (hv8 : v < 8) (hw0 : 0 ≤ w) (hw8 : w < 8)
    (h : toIdx v = toIdx w) : v = w := by
  unfold toIdx at h; omega

theorem Position.isValid_iff {p : Position} :
    p.isValid = true ↔ 0 ≤ p.x ∧ p.x < 8 ∧ 0 ≤ p.y ∧ p.y < 8 := by
  simp [Position.isValid, and_assoc]

theorem Position.inRange_of_isValid {p : Position} (h : p.isValid = true) : p.inRange := by
  rw [Position.isValid_iff] at h
  exact ⟨by omega, by omega, by omega, by omega⟩

theorem mem_allPositions {p : Position} : p ∈ allPositions ↔ p.isValid = true := by
  rw [allPositions, List.mem_flatMap, Position.isValid_iff]
  constructor
  · rintro ⟨x, hx, h⟩
    rw [List.mem_map] at h
    obtain ⟨y, hy, rfl⟩ := h
    rw [List.mem_range] at hx hy
    refine ⟨?_, ?_, ?_, ?_⟩ <;> dsimp only <;> omega
  · rintro ⟨h1, h2, h3, h4⟩
    refine ⟨p.x.toNat, by rw [List.mem_range]; omega, ?_⟩
    rw [List.mem_map]
    refine ⟨p.y.toNat, by rw [List.mem_range]; omega, ?_⟩
    cases p with
    | mk a b =>
      dsimp only at h1 h2 h3 h4
      simp only [Position.mk.injEq]
      constructor <;> omega

theorem list_set_same {α : Type} :
    ∀ (l : List α) (i : Nat) (a : α), l[i]? = some a → l.set i a = l
  | [], i, a, h => by simp at h
  | x :: xs, 0, a, h => by
    simp only [List.getElem?_cons_zero, Option.some.injEq] at h
    simp [h]
  | x :: xs, i + 1, a, h => by
    simp only [List.getElem?_cons_succ] at h
    simp [List.set, list_set_same xs i a h]

theorem Board.row_of_WF {b : Board} (hWF : b.WF) {i : Nat} {row : List (Option Piece)}
    (h : b.rows[i]? = some row) : row.length = 8 := by
  obtain ⟨hlt, hget⟩ := List.getElem?_eq_some.mp h
  exact hWF.2 row (hget ▸ List.getElem_mem hlt)

theorem Board.rows_isSome_of_valid {b : Board} (hWF : b.WF) {x : Int}
    (h0 : 0 ≤ x) (h8 : x < 8) : ∃ row, b.rows[toIdx x]? = some row := by
  have hlt : toIdx x < b.rows.length := by rw [hWF.1]; exact toIdx_lt_8 h0 h8
  exact ⟨b.rows[toIdx x], List.getElem?_eq_some.mpr ⟨hlt, rfl⟩⟩

/-- Reading an off-board position (with `i8`-representable coordinates, as in
Rust) from an 8×8 board yields `None`. -/
theorem Board.get_piece_invalid {b : Board} (hWF : b.WF) {p : Position}
    (hr : p.inRange) (hv : p.isValid = false) : b.get_piece p = none := by
  obtain ⟨hx1, hx2, hy1, hy2⟩ := hr
  have hv' : ¬(0 ≤ p.x ∧ p.x < 8 ∧ 0 ≤ p.y ∧ p.y < 8) := by
    intro h; rw [Position.isValid_iff.mpr h] at hv; cases hv
  unfold Board.get_piece
  by_cases hx : 0 ≤ p.x ∧ p.x < 8
  · obtain ⟨row, hrow⟩ := b.rows_isSome_of_valid hWF hx.1 hx.2
    have hy : ¬(0 ≤ p.y ∧ p.y < 8) := by tauto
    have h8 : 8 ≤ toIdx p.y := toIdx_ge_8 hy1 hy2 hy
    have : row[toIdx p.y]? = none :=
      List.getElem?_eq_none (by rw [Board.row_of_WF hWF hrow]; exact h8)
    rw [hrow]
    simp [this]
  · have h8 : 8 ≤ toIdx p.x := toIdx_ge_8 hx1 hx2 hx
    have : b.rows[toIdx p.x]? = none :=
      List.getElem?_eq_none (by rw [hWF.1]; exact h8)
    simp [this]

/-- Writing to an off-board position (with `i8`-representable coordinates)
of an 8×8 board is a no-op. -/
theorem Board.set_piece_invalid {b : Board} (hWF : b.WF) {p : Position}
    (hr : p.inRange) (hv : p.isValid = false) (v : Option Piece) : b.set_piece p v = b := by
  obtain ⟨hx1, hx2, hy1, hy2⟩ := hr
  have hv' : ¬(0 ≤ p.x ∧ p.x < 8 ∧ 0 ≤ p.y ∧ p.y < 8) := by
    intro h; rw [Position.isValid_iff.mpr h] at hv; cases hv
  unfold Board.set_piece
  by_cases hx : 0 ≤ p.x ∧ p.x < 8
  · obtain ⟨row, hrow⟩ := b.rows_isSome_of_valid hWF hx.1 hx.2
    have hy : ¬(0 ≤ p.y ∧ p.y < 8) := by tauto
    have h8 : 8 ≤ toIdx p.y := toIdx_ge_8 hy1 hy2 hy
    have hset : row.set (toIdx p.y) v = row :=
      List.set_eq_of_length_le (by rw [Board.row_of_WF hWF hrow]; exact h8)
    rw [hrow]
    simp only [hset]
    rw [list_set_same b.rows (toIdx p.x) row hrow]
  · have h8 : 8 ≤ toIdx p.x := toIdx_ge_8 hx1 hx2 hx
    have : b.rows[toIdx p.x]? = none :=
      List.getElem?_eq_none (by rw [hWF.1]; exact h8)
    simp [this]

theorem Board.WF_set {b : Board} (hWF : b.WF) (p : Position) (v : Option Piece) :
    (b.set_piece p v).WF := by
  unfold Board.set_piece
  cases hrow : b.rows[toIdx p.x]? with
  | none => exact hWF
  | some row =>
    constructor
    · simpa using hWF.1
    · intro r hr
      rcases List.mem_or_eq_of_mem_set hr with h | h
      · exact hWF.2 r h
      · rw [h, List.length_set]
        exact Board.row_of_WF hWF hrow

/-- Reading back the square just written (on-board). -/
theorem Board.get_set_same {b : Board} (hWF : b.WF) {p : Position}
    (hv : p.isValid = true) (v : Option Piece) : (b.set_piece p v).get_piece p = v := by
  obtain ⟨hx1, hx2, hy1, hy2⟩ := Position.isValid_iff.mp hv
  obtain ⟨row, hrow⟩ := b.rows_isSome_of_valid hWF hx1 hx2
  unfold Board.set_piece
  rw [hrow]
  unfold Board.get_piece
  have hxlt : toIdx p.x < b.rows.length := by rw [hWF.1]; exact toIdx_lt_8 hx1 hx2
  have hylt : toIdx p.y < row.length := by
    rw [Board.row_of_WF hWF hrow]; exact toIdx_lt_8 hy1 hy2
  simp only [List.getElem?_set_self hxlt, Option.some_bind]
  rw [List.getElem?_set_self (by simpa using hylt)]
  rfl

/-- Reading a different square than the one written (writes on-board;
the read position only needs `i8`-representable coordinates). -/
theorem Board.get_set_ne {b : Board} (hWF : b.WF) {p q : Position}
    (hq : q.isValid = true) (hp : p.inRange) (hne : p ≠ q) (v : Option Piece) :
    (b.set_piece q v).get_piece p = b.get_piece p := by
  by_cases hpv : p.isValid = true
  · obtain ⟨hpx1, hpx2, hpy1, hpy2⟩ := Position.isValid_iff.mp hpv
    obtain ⟨hqx1, hqx2, hqy1, hqy2⟩ := Position.isValid_iff.mp hq
    obtain ⟨qrow, hqrow⟩ := b.rows_isSome_of_valid hWF hqx1 hqx2
    unfold Board.set_piece
    rw [hqrow]
    unfold Board.get_piece
    by_cases hxx : toIdx p.x = toIdx q.x
    · have hx : p.x = q.x := toIdx_inj hpx1 hpx2 hqx1 hqx2 hxx
      have hy : p.y ≠ q.y := by
        intro h; exact hne (by cases p; cases q; simp_all)
      have hyy : toIdx q.y ≠ toIdx p.y := by
        intro h; exact hy (toIdx_inj hpy1 hpy2 hqy1 hqy2 h.symm)
      have hqlt : toIdx q.x < b.rows.length := by rw [hWF.1]; exact toIdx_lt_8 hqx1 hqx2
      simp only [hxx, List.getElem?_set_self hqlt, hqrow, Option.some_bind]
      rw [List.getElem?_set_ne hyy]
    · simp only [List.getElem?_set_ne (fun h => hxx h.symm)]
  · have hinv : p.isValid = false := by simpa using hpv
    rw [Board.get_piece_invalid (b.WF_set hWF q v) hp hinv,
      Board.get_piece_invalid hWF hp hinv]

/-- A successful read implies the position is on-board (for
`i8`-representable coordinates on an 8×8 board). -/
theorem Board.isValid_of_get_some {b : Board} (hWF : b.WF) {p : Position}
    (hr : p.inRange) {piece : Piece} (h : b.get_piece p = some piece) :
    p.isValid = true := by
  by_cases hv : p.isValid = true
  · exact hv
  · rw [Board.get_piece_invalid hWF hr (by simpa using hv)] at h
    cases h

/-! ### Equations for the make-move family -/

theorem make_normal_move_eq (s : State) (m : StandardMove) :
    s.make_normal_move m =
      { s with
        castling_rights :=
          rightsUpdateOfPiece (s.board.get_piece m.fromSq) m.fromSq.y s.castling_rights,
        white_king_pos :=
          match s.board.get_piece m.fromSq, s.player with
          | some ⟨_, .King⟩, .White => m.toSq
          | _, _ => s.white_king_pos,
        black_king_pos :=
          match s.board.get_piece m.fromSq, s.player with
          | some ⟨_, .King⟩, .Black => m.toSq
          | _, _ => s.black_king_pos,
        board :=
          (s.board.set_piece m.toSq (s.board.get_piece m.fromSq)).set_piece m.fromSq none } := by
  unfold State.make_normal_move rightsUpdateOfPiece
  cases hget : s.board.get_piece m.fromSq with
  | none => dsimp only; rw [hget]
  | some piece =>
    cases piece with
    | mk c k =>
      cases k
      case King =>
        dsimp only [State.set_king_position]
        cases hp : s.player <;> (dsimp only; rw [hget])
      case Rook =>
        dsimp only
        split_ifs <;> (try dsimp only) <;> rw [hget]
      all_goals (dsimp only; rw [hget])

theorem make_double_advance_move_eq (s : State) (m : PawnDoubleAdvanceMove) :
    s.make_double_advance_move m =
      { s with
        en_passant := some ⟨Int.tdiv (m.fromSq.x + m.toSq.x) 2, m.fromSq.y⟩,
        board :=
          (s.board.set_piece m.toSq (s.board.get_piece m.fromSq)).set_piece m.fromSq none } :=
  rfl

theorem make_en_passant_move_eq (s : State) (m : PawnEnPassantMove) :
    s.make_en_passant_move m =
      { s with
        board :=
          ((s.board.set_piece m.toSq (s.board.get_piece m.fromSq)).set_piece m.fromSq
            none).set_piece ⟨m.fromSq.x, m.toSq.y⟩ none } :=
  rfl

theorem make_promotion_move_eq (s : State) (m : PawnPromotionMove) :
    s.make_promotion_move m =
      ({ s with board := s.board.set_piece m.pawn.fromSq (some m.promotion) } : State).make_normal_move
        m.pawn :=
  rfl

theorem make_castling_move_eq (s : State) (m : CastlingMove) :
    s.make_castling_move m =
      { s with
        white_king_pos :=
          if s.player = .White then (castleData m).2.2.2.1 else s.white_king_pos,
        black_king_pos :=
          if s.player = .Black then (castleData m).2.2.2.1 else s.black_king_pos,
        castling_rights := s.castling_rights.disable_both_sides (castleData m).1,
        board :=
          (((s.board.set_piece (castleData m).2.2.2.1
                  (some ⟨(castleData m).1, .King⟩)).set_piece (castleData m).2.1
                none).set_piece (castleData m).2.2.1
              (some ⟨(castleData m).1, .Rook⟩)).set_piece (castleData m).2.2.2.2 none } := by
  cases hp : s.player <;>
    cases m <;>
      simp [State.make_castling_move, State.set_king_position, castleData, hp]

theorem make_move_player (s : State) (mv : Move) : (s.make_move mv).player = s.opponent := by
  cases mv <;>
    simp [State.make_move, make_normal_move_eq, make_double_advance_move_eq,
      make_en_passant_move_eq, make_promotion_move_eq, make_castling_move_eq]

theorem make_move_opponent (s : State) (mv : Move) : (s.make_move mv).opponent = s.player := by
  cases mv <;>
    simp [State.make_move, make_normal_move_eq, make_double_advance_move_eq,
      make_en_passant_move_eq, make_promotion_move_eq, make_castling_move_eq]

theorem make_move_half_moves (s : State) (mv : Move) :
    (s.make_move mv).half_moves = (s.half_moves + 1) % 18446744073709551616 := by
  cases mv <;>
    simp [State.make_move, make_normal_move_eq, make_double_advance_move_eq,
      make_en_passant_move_eq, make_promotion_move_eq, make_castling_move_eq]

theorem make_move_full_moves (s : State) (mv : Move) :
    (s.make_move mv).full_moves = ((s.half_moves + 1) % 18446744073709551616) / 2 := by
  cases mv <;>
    simp [State.make_move, make_normal_move_eq, make_double_advance_move_eq,
      make_en_passant_move_eq, make_promotion_move_eq, make_castling_move_eq]

theorem make_move_en_passant (s : State) (mv : Move) :
    (s.make_move mv).en_passant = epTarget mv := by
  cases mv <;>
    simp [State.make_move, make_normal_move_eq, make_double_advance_move_eq,
      make_en_passant_move_eq, make_promotion_move_eq, make_castling_move_eq, epTarget]

theorem make_move_castling_rights (s : State) (mv : Move) :
    (s.make_move mv).castling_rights = rightsAfter s mv := by
  cases mv <;>
    simp [State.make_move, make_normal_move_eq, make_double_advance_move_eq,
      make_en_passant_move_eq, make_promotion_move_eq, make_castling_move_eq, rightsAfter]

/-! ### Claim C5 — halfmove clock -/

/-- Claim C5, counterexample: the double push e2-e4 from the start position
is a pawn move, yet the halfmove counter afterwards is not 0 (the code
increments it unconditionally; it is a ply counter). -/
theorem c5_counterexample :
    State.new.validate_move e2e4 = true ∧ (State.new.make_move e2e4).half_moves ≠ 0 := by
  decide

/-- Claim C5, amended: `make_move` increments `half_moves` by exactly one
(as a wrapping `usize`) on every move, whatever its kind; it is never reset
to 0 by pawn moves or captures. -/
theorem c5_half_moves_increment (s : State) (mv : Move) :
    (s.make_move mv).half_moves = (s.half_moves + 1) % 18446744073709551616 :=
  make_move_half_moves s mv

/-! ### Claim C6 — fullmove number -/

/-- Claim C6, counterexample: the fullmove number of a freshly constructed
`State` is 0, not 1. -/
theorem c6_counterexample : State.new.full_moves ≠ 1 := by
  decide

/-- Claim C6, amended: `State::new` sets `full_moves` to 0 (not 1), and for
any state satisfying the code's own invariants (`full_moves = half_moves/2`,
ply parity matching the side to move, no `usize` overflow pending) a move by
Black increments `full_moves` by one and a move by White leaves it
unchanged. -/
theorem c6_full_moves :
    State.new.full_moves = 0 ∧
      ∀ (s : State) (mv : Move),
        s.half_moves + 1 < 18446744073709551616 →
        s.full_moves = s.half_moves / 2 →
        (s.half_moves % 2 = if s.player = .White then 0 else 1) →
        (s.make_move mv).full_moves =
          if s.player = .Black then s.full_moves + 1 else s.full_moves := by
  refine ⟨rfl, ?_⟩
  intro s mv hov hfull hpar
  rw [make_move_full_moves, Nat.mod_eq_of_lt hov]
  cases hp : s.player
  case White =>
    rw [hp] at hpar
    rw [if_pos rfl] at hpar
    rw [if_neg (by decide : ¬(Color.White = Color.Black))]
    omega
  case Black =>
    rw [hp] at hpar
    rw [if_neg (by decide : ¬(Color.Black = Color.White))] at hpar
    rw [if_pos rfl]
    omega

/-- Witness for `c6_full_moves` at the start position and the move e2-e4. -/
theorem c6_witness :
    (State.new.make_move e2e4).full_moves =
      if State.new.player = .Black then State.new.full_moves + 1 else State.new.full_moves :=
  c6_full_moves.2 State.new e2e4 (by decide) (by decide) (by decide)

/-! ### Claim C7 — en-passant target -/

/-- Claim C7, confirmed: after `make_move` the en-passant field is `Some`
of the midpoint square (from's file, truncated average of the ranks)
exactly for a pawn double push, and `None` for every other move kind. -/
theorem c7_en_passant_target (s : State) (mv : Move) :
    (s.make_move mv).en_passant = epTarget mv :=
  make_move_en_passant s mv

/-! ### Claim C3 — castling-rights update -/

/-- Claim C3, counterexample: black plays Bxh1, a capture landing on the
h1 corner, from a position where white still has both rights.  The spec's
mask rule clears white's king-side right; the code leaves the rights
unchanged (it only inspects the piece on the from-square). -/
theorem c3_counterexample :
    c3_state.validate_move c3_move = true ∧
      (c3_state.make_move c3_move).castling_rights ≠
        maskRights (maskRights c3_state.castling_rights ⟨2, 5⟩) ⟨0, 7⟩ := by
  decide

/-- Claim C3, amended: castling rights after `make_move` depend only on the
piece standing on the from-square (for a promotion, the promotion piece that
overwrote it): a king move clears both rights of its color, a rook move from
file 0 (resp. file 7) clears that color's queen-side (resp. king-side) right,
castling clears both rights of the castling side, and every other move —
in particular any capture, whatever square it lands on — leaves the rights
unchanged. -/
theorem c3_rights_update (s : State) (mv : Move) :
    (s.make_move mv).castling_rights = rightsAfter s mv :=
  make_move_castling_rights s mv

/-! ### Claim C10 — out-of-bounds board access -/

/-- Claim C10, confirmed: `Board::get_piece` and `Board::set_piece` are
total (they are plain functions in this embedding, mirroring the
`get`/`get_mut` option chains of the source, which cannot panic); for every
position with `i8`-representable coordinates lying off the board, `get_piece`
returns `None` and `set_piece` leaves the 8×8 board unchanged. -/
theorem c10_out_of_bounds (b : Board) (p : Position) (hWF : b.WF) (hr : p.inRange)
    (hv : p.isValid = false) :
    b.get_piece p = none ∧ ∀ v, b.set_piece p v = b :=
  ⟨Board.get_piece_invalid hWF hr hv, fun v => Board.set_piece_invalid hWF hr hv v⟩

/-- Witness for `c10_out_of_bounds` on the initial board at `(-1, 3)`. -/
theorem c10_witness :
    Board.new.get_piece ⟨-1, 3⟩ = none ∧
      Board.new.set_piece ⟨-1, 3⟩ (some ⟨.White, .Queen⟩) = Board.new :=
  ⟨(c10_out_of_bounds Board.new ⟨-1, 3⟩ (by decide) (by decide) (by decide)).1,
    (c10_out_of_bounds Board.new ⟨-1, 3⟩ (by decide) (by decide) (by decide)).2
      (some ⟨.White, .Queen⟩)⟩

/-! ### Claim C4 — castling validators -/

/-- Claim C4, counterexample: `Game::validate_castle_move` accepts white
queen-side castling although the queen-side right is cleared and b1 is
occupied (it tests the white king-side right for every wing and never checks
the b-file square). -/
theorem c4_counterexample :
    c4_game.validate_castle_move .WhiteQueenSide = true ∧
      c4_game.castling_rights.white_queen = false ∧
      c4_game.board.is_position_empty ⟨0, 1⟩ = false := by
  decide

/-- Claim C4, amended: the claim holds for the castling validator the engine
uses, `State::validate_castling_move` — acceptance implies the right of the
moving side's wing is set, every square between king and rook is empty, and
none of the king's from-square, passed-through square and to-square is
attacked by the opponent.  (The parallel `Game::validate_castle_move` does
not satisfy it, per the counterexample.) -/
theorem c4_castling_validator (s : State) (m : CastlingMove)
    (h : s.validate_castling_move m = true) :
    castlingRightFor s.castling_rights m = true ∧
      (∀ p ∈ castleBetweenSquares m, s.board.is_position_empty p = true) ∧
      ∀ p ∈ castleKingPath m, s.board.is_position_in_check p (castleSide m).opposite = false := by
  cases m <;>
    simp only [State.validate_castling_move, Bool.and_eq_true, Bool.not_eq_true',
      decide_eq_true_eq] at h <;>
    simp only [castlingRightFor, castleBetweenSquares, castleKingPath, castleSide,
      Color.opposite, List.mem_cons, List.not_mem_nil, or_false, forall_eq_or_imp,
      forall_eq] <;>
    tauto

/-- Witness for `c4_castling_validator`: white castles king-side from
`c4_state`. -/
theorem c4_witness :
    castlingRightFor c4_state.castling_rights .WhiteKing = true ∧
      (∀ p ∈ castleBetweenSquares .WhiteKing, c4_state.board.is_position_empty p = true) ∧
      ∀ p ∈ castleKingPath .WhiteKing,
        c4_state.board.is_position_in_check p (castleSide .WhiteKing).opposite = false :=
  c4_castling_validator c4_state .WhiteKing (by decide)

/-! ### Claim C8 — en-passant make -/

/-- Claim C8, confirmed: making an en-passant move (on an 8×8 board, with
on-board squares on distinct ranks, as every validated en-passant move has)
moves the piece from the from-square to the to-square, empties the
from-square, empties the captured-pawn square at (from's rank, to's file),
and clears the en-passant field. -/
theorem c8_en_passant_effect (s : State) (m : PawnEnPassantMove) (hWF : s.board.WF)
    (hf : m.fromSq.isValid = true) (ht : m.toSq.isValid = true)
    (hx : m.fromSq.x ≠ m.toSq.x) :
    (s.make_move (.PawnEnPassant m)).board.get_piece m.toSq = s.board.get_piece m.fromSq ∧
      (s.make_move (.PawnEnPassant m)).board.get_piece m.fromSq = none ∧
      (s.make_move (.PawnEnPassant m)).board.get_piece ⟨m.fromSq.x, m.toSq.y⟩ = none ∧
      (s.make_move (.PawnEnPassant m)).en_passant = none := by
  have hboard :
      (s.make_move (.PawnEnPassant m)).board =
        ((s.board.set_piece m.toSq (s.board.get_piece m.fromSq)).set_piece m.fromSq
          none).set_piece ⟨m.fromSq.x, m.toSq.y⟩ none := by
    simp [State.make_move, make_en_passant_move_eq]
  obtain ⟨hf1, hf2, hf3, hf4⟩ := Position.isValid_iff.mp hf
  obtain ⟨ht1, ht2, ht3, ht4⟩ := Position.isValid_iff.mp ht
  have hcap : (⟨m.fromSq.x, m.toSq.y⟩ : Position).isValid = true :=
    Position.isValid_iff.mpr ⟨hf1, hf2, ht3, ht4⟩
  have hWF1 : (s.board.set_piece m.toSq (s.board.get_piece m.fromSq)).WF :=
    Board.WF_set hWF _ _
  have hWF2 :
      ((s.board.set_piece m.toSq (s.board.get_piece m.fromSq)).set_piece m.fromSq none).WF :=
    Board.WF_set hWF1 _ _
  have hne_to_cap : m.toSq ≠ (⟨m.fromSq.x, m.toSq.y⟩ : Position) :=
    fun h => hx (congrArg Position.x h).symm
  have hne_to_from : m.toSq ≠ m.fromSq := fun h => hx (congrArg Position.x h).symm
  refine ⟨?_, ?_, ?_, ?_⟩
  · rw [hboard,
      Board.get_set_ne hWF2 hcap (Position.inRange_of_isValid ht) hne_to_cap,
      Board.get_set_ne hWF1 hf (Position.inRange_of_isValid ht) hne_to_from,
      Board.get_set_same hWF ht]
  · by_cases hfc : m.fromSq = (⟨m.fromSq.x, m.toSq.y⟩ : Position)
    · rw [hboard]
      exact (congrArg
        (fun q =>
          (((s.board.set_piece m.toSq (s.board.get_piece m.fromSq)).set_piece m.fromSq
              none).set_piece ⟨m.fromSq.x, m.toSq.y⟩ none).get_piece q)
        hfc).trans (Board.get_set_same hWF2 hcap none)
    · rw [hboard, Board.get_set_ne hWF2 hcap (Position.inRange_of_isValid hf) hfc]
      exact Board.get_set_same hWF1 hf none
  · rw [hboard]
    exact Board.get_set_same hWF2 hcap none
  · simp [State.make_move, make_en_passant_move_eq]

/-- Witness for `c8_en_passant_effect`: the capture exd6 in `c8_state`. -/
theorem c8_witness :
    (c8_state.make_move (.PawnEnPassant c8_move)).board.get_piece ⟨5, 3⟩ =
        c8_state.board.get_piece ⟨4, 4⟩ ∧
      (c8_state.make_move (.PawnEnPassant c8_move)).board.get_piece ⟨4, 4⟩ = none ∧
      (c8_state.make_move (.PawnEnPassant c8_move)).board.get_piece ⟨4, 3⟩ = none ∧
      (c8_state.make_move (.PawnEnPassant c8_move)).en_passant = none :=
  c8_en_passant_effect c8_state c8_move (by decide) (by decide) (by decide) (by decide)

/-! ### Claim C1 — legal moves avoid self-check -/

/-- Claim C1, confirmed: every `(move, state)` pair returned by
`gen_legal_moves` has passed the filter, so in the resulting state the
mover's (tracked) king square is not attacked by the opposing color.
The hypothesis `s.opponent = s.player.opposite` states that the state's
redundant `opponent` field is coherent, which holds for every state the
engine constructs; the code tests attack by `new_state.player`, which is
that opponent. -/
theorem c1_legal_moves_avoid_check (s : State) (mv : Move) (ns : State)
    (hmem : (mv, ns) ∈ s.gen_legal_moves) (hopp : s.opponent = s.player.opposite) :
    ns.board.is_position_in_check (moverKingPos s.player ns) s.player.opposite = false := by
  unfold State.gen_legal_moves at hmem
  rw [List.mem_filterMap] at hmem
  obtain ⟨a, ha, heq⟩ := hmem
  dsimp only at heq
  by_cases hc :
      (s.make_move a).board.is_position_in_check
        (match s.player with
         | .White => (s.make_move a).white_king_pos
         | .Black => (s.make_move a).black_king_pos) (s.make_move a).player = true
  · rw [if_pos hc] at heq
    cases heq
  · rw [if_neg hc] at heq
    have hpair := Option.some.inj heq
    have hmv : a = mv := congrArg Prod.fst hpair
    have hns : s.make_move a = ns := congrArg Prod.snd hpair
    subst hmv
    subst hns
    rw [Bool.not_eq_true, make_move_player, hopp] at hc
    cases hp : s.player
    · rw [hp] at hc
      simp only [moverKingPos]
      exact hc
    · rw [hp] at hc
      simp only [moverKingPos]
      exact hc

/-- Witness for `c1_legal_moves_avoid_check`: the king step Kd2 is among
white's legal moves in `c4_state`. -/
theorem c1_witness :
    (c4_state.make_move (.Standard ⟨⟨0, 4⟩, ⟨1, 3⟩⟩)).board.is_position_in_check
        (moverKingPos c4_state.player (c4_state.make_move (.Standard ⟨⟨0, 4⟩, ⟨1, 3⟩⟩)))
        c4_state.player.opposite = false :=
  c1_legal_moves_avoid_check c4_state (.Standard ⟨⟨0, 4⟩, ⟨1, 3⟩⟩)
    (c4_state.make_move (.Standard ⟨⟨0, 4⟩, ⟨1, 3⟩⟩)) (by decide) (by decide)

/-! ### Elimination lemmas for the board predicates and king tracking -/

theorem is_position_piece_elim {b : Board} {p : Position} {piece : Piece}
    (h : b.is_position_piece p piece = true) : b.get_piece p = some piece := by
  unfold Board.is_position_piece at h
  cases hget : b.get_piece p with
  | none => rw [hget] at h; cases h
  | some got =>
    rw [hget] at h
    rw [of_decide_eq_true h]

theorem is_position_empty_elim {b : Board} {p : Position}
    (h : b.is_position_empty p = true) : b.get_piece p = none := by
  unfold Board.is_position_empty at h
  cases hget : b.get_piece p with
  | none => rfl
  | some got => rw [hget] at h; cases h

theorem get_piece_eq_some {b : Board} {p : Position} {piece : Piece}
    (h : b.get_piece p = some piece) :
    ∃ row, b.rows[toIdx p.x]? = some row ∧ row[toIdx p.y]? = some (some piece) := by
  unfold Board.get_piece at h
  cases hr : b.rows[toIdx p.x]? with
  | none => rw [hr] at h; cases h
  | some row =>
    rw [hr] at h
    simp only [Option.some_bind] at h
    cases hc : row[toIdx p.y]? with
    | none => rw [hc] at h; cases h
    | some cell =>
      rw [hc] at h
      simp only [Option.getD_some] at h
      exact ⟨row, rfl, by rw [hc, h]⟩

theorem get_piece_congr_toIdx (b : Board) {p q : Position} (hx : toIdx p.x = toIdx q.x)
    (hy : toIdx p.y = toIdx q.y) : b.get_piece p = b.get_piece q := by
  unfold Board.get_piece
  rw [hx, hy]

theorem toIdx_natCast {n : Nat} (h : n < 8) : toIdx (Nat.cast n) = n := by
  unfold toIdx; omega

/-- Under `kingsOK`, the tracked king squares are on-board: the successful
read pins the indices below 8, and uniqueness pins the coordinates to the
canonical in-range representative. -/
theorem kingsOK_wkp_valid {s : State} (hWF : s.board.WF) (hOK : kingsOK s) :
    s.white_king_pos.isValid = true := by
  obtain ⟨row, hrow, hcell⟩ := get_piece_eq_some hOK.1
  have hx : toIdx s.white_king_pos.x < 8 := by
    have := (List.getElem?_eq_some.mp hrow).1
    rw [hWF.1] at this
    exact this
  have hy : toIdx s.white_king_pos.y < 8 := by
    have := (List.getElem?_eq_some.mp hcell).1
    rw [Board.row_of_WF hWF hrow] at this
    exact this
  have hqv : (Position.mk (Nat.cast (toIdx s.white_king_pos.x))
      (Nat.cast (toIdx s.white_king_pos.y))).isValid = true := by
    rw [Position.isValid_iff]
    refine ⟨?_, ?_, ?_, ?_⟩ <;> dsimp only <;> omega
  have hgq : s.board.get_piece
      ⟨Nat.cast (toIdx s.white_king_pos.x), Nat.cast (toIdx s.white_king_pos.y)⟩ =
        some ⟨.White, .King⟩ := by
    rw [get_piece_congr_toIdx s.board (toIdx_natCast hx) (toIdx_natCast hy)]
    exact hOK.1
  have := (hOK.2.2 _ (mem_allPositions.mpr hqv)).1 hgq
  rw [← this]
  exact hqv

theorem kingsOK_bkp_valid {s : State} (hWF : s.board.WF) (hOK : kingsOK s) :
    s.black_king_pos.isValid = true := by
  obtain ⟨row, hrow, hcell⟩ := get_piece_eq_some hOK.2.1
  have hx : toIdx s.black_king_pos.x < 8 := by
    have := (List.getElem?_eq_some.mp hrow).1
    rw [hWF.1] at this
    exact this
  have hy : toIdx s.black_king_pos.y < 8 := by
    have := (List.getElem?_eq_some.mp hcell).1
    rw [Board.row_of_WF hWF hrow] at this
    exact this
  have hqv : (Position.mk (Nat.cast (toIdx s.black_king_pos.x))
      (Nat.cast (toIdx s.black_king_pos.y))).isValid = true := by
    rw [Position.isValid_iff]
    refine ⟨?_, ?_, ?_, ?_⟩ <;> dsimp only <;> omega
  have hgq : s.board.get_piece
      ⟨Nat.cast (toIdx s.black_king_pos.x), Nat.cast (toIdx s.black_king_pos.y)⟩ =
        some ⟨.Black, .King⟩ := by
    rw [get_piece_congr_toIdx s.board (toIdx_natCast hx) (toIdx_natCast hy)]
    exact hOK.2.1
  have := (hOK.2.2 _ (mem_allPositions.mpr hqv)).2 hgq
  rw [← this]
  exact hqv

/-- Transfer of `kingsOK` to a new board when both tracked squares are
unchanged: on every square either the board is unchanged or no king stands
there afterwards. -/
theorem kingsOK_preserve (s : State) (s' : State)
    (hOK : kingsOK s)
    (hwp : s'.white_king_pos = s.white_king_pos)
    (hbp : s'.black_king_pos = s.black_king_pos)
    (hw : s'.board.get_piece s.white_king_pos = some ⟨.White, .King⟩)
    (hb : s'.board.get_piece s.black_king_pos = some ⟨.Black, .King⟩)
    (hsub : ∀ p ∈ allPositions,
      s'.board.get_piece p = s.board.get_piece p ∨
        ∀ c k, s'.board.get_piece p = some ⟨c, k⟩ → k ≠ .King) :
    kingsOK s' := by
  refine ⟨by rw [hwp]; exact hw, by rw [hbp]; exact hb, ?_⟩
  intro p hp
  constructor
  · intro hk
    rw [hwp]
    rcases hsub p hp with hsame | hnk
    · exact (hOK.2.2 p hp).1 (hsame ▸ hk)
    · exact absurd rfl (hnk _ _ hk)
  · intro hk
    rw [hbp]
    rcases hsub p hp with hsame | hnk
    · exact (hOK.2.2 p hp).2 (hsame ▸ hk)
    · exact absurd rfl (hnk _ _ hk)

/-- Transfer of `kingsOK` when the white king moved to `newWkp`: away from
the new square, each square is either unchanged (and was not the old white
king square) or carries no king afterwards. -/
theorem kingsOK_move_white (s : State) (s' : State) (newWkp : Position)
    (hOK : kingsOK s)
    (hwp : s'.white_king_pos = newWkp)
    (hbp : s'.black_king_pos = s.black_king_pos)
    (hw : s'.board.get_piece newWkp = some ⟨.White, .King⟩)
    (hb : s'.board.get_piece s.black_king_pos = some ⟨.Black, .King⟩)
    (hsub : ∀ p ∈ allPositions, p ≠ newWkp →
      (s'.board.get_piece p = s.board.get_piece p ∧ p ≠ s.white_king_pos) ∨
        ∀ c k, s'.board.get_piece p = some ⟨c, k⟩ → k ≠ .King) :
    kingsOK s' := by
  refine ⟨by rw [hwp]; exact hw, by rw [hbp]; exact hb, ?_⟩
  intro p hp
  constructor
  · intro hk
    rw [hwp]
    by_cases hpn : p = newWkp
    · exact hpn
    · rcases hsub p hp hpn with ⟨hsame, hold⟩ | hnk
      · exact absurd ((hOK.2.2 p hp).1 (hsame ▸ hk)) hold
      · exact absurd rfl (hnk _ _ hk)
  · intro hk
    rw [hbp]
    by_cases hpn : p = newWkp
    · rw [hpn] at hk
      rw [hw] at hk
      cases hk
    · rcases hsub p hp hpn with ⟨hsame, _⟩ | hnk
      · exact (hOK.2.2 p hp).2 (hsame ▸ hk)
      · exact absurd rfl (hnk _ _ hk)

/-- Transfer of `kingsOK` when the black king moved to `newBkp`. -/
theorem kingsOK_move_black (s : State) (s' : State) (newBkp : Position)
    (hOK : kingsOK s)
    (hwp : s'.white_king_pos = s.white_king_pos)
    (hbp : s'.black_king_pos = newBkp)
    (hw : s'.board.get_piece s.white_king_pos = some ⟨.White, .King⟩)
    (hb : s'.board.get_piece newBkp = some ⟨.Black, .King⟩)
    (hsub : ∀ p ∈ allPositions, p ≠ newBkp →
      (s'.board.get_piece p = s.board.get_piece p ∧ p ≠ s.black_king_pos) ∨
        ∀ c k, s'.board.get_piece p = some ⟨c, k⟩ → k ≠ .King) :
    kingsOK s' := by
  refine ⟨by rw [hwp]; exact hw, by rw [hbp]; exact hb, ?_⟩
  intro p hp
  constructor
  · intro hk
    rw [hwp]
    by_cases hpn : p = newBkp
    · rw [hpn] at hk
      rw [hb] at hk
      cases hk
    · rcases hsub p hp hpn with ⟨hsame, _⟩ | hnk
      · exact (hOK.2.2 p hp).1 (hsame ▸ hk)
      · exact absurd rfl (hnk _ _ hk)
  · intro hk
    rw [hbp]
    by_cases hpn : p = newBkp
    · exact hpn
    · rcases hsub p hp hpn with ⟨hsame, hold⟩ | hnk
      · exact absurd ((hOK.2.2 p hp).2 (hsame ▸ hk)) hold
      · exact absurd rfl (hnk _ _ hk)

/-! ### Reads through the two-write board transform of a normal move -/

theorem normal_get_from {b : Board} (hWF : b.WF) {fromP toP : Position}
    (hf : fromP.isValid = true) (v : Option Piece) :
    ((b.set_piece toP v).set_piece fromP none).get_piece fromP = none :=
  Board.get_set_same (Board.WF_set hWF _ _) hf none

theorem normal_get_to {b : Board} (hWF : b.WF) {fromP toP : Position}
    (hf : fromP.isValid = true) (ht : toP.isValid = true) (hne : toP ≠ fromP)
    (v : Option Piece) :
    ((b.set_piece toP v).set_piece fromP none).get_piece toP = v := by
  rw [Board.get_set_ne (Board.WF_set hWF _ _) hf (Position.inRange_of_isValid ht) hne]
  exact Board.get_set_same hWF ht v

theorem bool_false_of_not_true {x : Bool} (h : ¬x = true) : x = false := by
  revert h; cases x <;> simp

theorem normal_get_other {b : Board} (hWF : b.WF) {fromP toP p : Position}
    (hf : fromP.isValid = true) (htr : toP.inRange) (hp : p.inRange)
    (hpf : p ≠ fromP) (hpt : p ≠ toP) (v : Option Piece) :
    ((b.set_piece toP v).set_piece fromP none).get_piece p = b.get_piece p := by
  rw [Board.get_set_ne (Board.WF_set hWF _ _) hf hp hpf]
  by_cases htv : toP.isValid = true
  · exact Board.get_set_ne hWF htv hp hpt v
  · rw [Board.set_piece_invalid hWF htr (bool_false_of_not_true htv) v]

theorem isKingAt_false_elim {b : Board} {p : Position} (h : isKingAt b p = false) :
    ∀ c, b.get_piece p ≠ some ⟨c, .King⟩ := by
  intro c hk
  unfold isKingAt at h
  rw [hk] at h
  cases h

/-! ### Elimination of the validators -/

theorem validate_move_standard_elim {s : State} {m : StandardMove}
    (h : s.validate_move (.Standard m) = true) : s.validate_normal_move m = true := by
  unfold State.validate_move at h
  dsimp only at h
  by_cases hp : s.validate_normal_move m = true
  · exact hp
  · rw [if_neg hp] at h
    cases h

theorem validate_move_double_elim {s : State} {m : PawnDoubleAdvanceMove}
    (h : s.validate_move (.PawnDoubleAdvance m) = true) :
    s.validate_double_advance_move m = true := by
  unfold State.validate_move at h
  dsimp only at h
  by_cases hp : s.validate_double_advance_move m = true
  · exact hp
  · rw [if_neg hp] at h
    cases h

theorem validate_move_ep_elim {s : State} {m : PawnEnPassantMove}
    (h : s.validate_move (.PawnEnPassant m) = true) :
    s.validate_en_passant_move m = true := by
  unfold State.validate_move at h
  dsimp only at h
  by_cases hp : s.validate_en_passant_move m = true
  · exact hp
  · rw [if_neg hp] at h
    cases h

theorem validate_move_promotion_elim {s : State} {m : PawnPromotionMove}
    (h : s.validate_move (.PawnPromotion m) = true) :
    s.validate_promotion_move m = true := by
  unfold State.validate_move at h
  dsimp only at h
  by_cases hp : s.validate_promotion_move m = true
  · exact hp
  · rw [if_neg hp] at h
    cases h

theorem validate_move_castling_elim {s : State} {m : CastlingMove}
    (h : s.validate_move (.Castling m) = true) : s.validate_castling_move m = true := by
  unfold State.validate_move at h
  dsimp only at h
  by_cases hp : s.validate_castling_move m = true
  · exact hp
  · rw [if_neg hp] at h
    cases h

theorem validate_normal_elim {s : State} {m : StandardMove}
    (h : s.validate_normal_move m = true) :
    ∃ piece, s.board.get_piece m.fromSq = some piece ∧ piece.color = s.player ∧
      (∀ q, s.board.get_piece m.toSq = some q → q.color ≠ s.player) ∧
      s.validate_normal_kind m piece = true := by
  unfold State.validate_normal_move at h
  cases hget : s.board.get_piece m.fromSq with
  | none => rw [hget] at h; cases h
  | some piece =>
    rw [hget] at h
    dsimp only at h
    by_cases hcol : piece.color = s.player
    · rw [if_pos hcol] at h
      cases hto : s.board.get_piece m.toSq with
      | none =>
        rw [hto] at h
        dsimp only at h
        refine ⟨piece, rfl, hcol, ?_, h⟩
        intro q hq
        exact Option.noConfusion hq
      | some q =>
        rw [hto] at h
        dsimp only at h
        by_cases hqc : q.color = s.player
        · rw [if_pos hqc] at h
          cases h
        · rw [if_neg hqc] at h
          refine ⟨piece, rfl, hcol, ?_, h⟩
          intro q' hq'
          rw [Option.some.inj hq'] at hqc
          exact hqc
    · rw [if_neg hcol] at h
      cases h

/-! ### King tracking across each move kind -/

theorem c9_standard (s : State) (m : StandardMove) (hWF : s.board.WF) (hOK : kingsOK s)
    (hrange : (Move.Standard m).inRange) (hdest : moveDestSafe s (.Standard m))
    (hval : s.validate_move (.Standard m) = true) :
    kingsOK (s.make_move (.Standard m)) := by
  obtain ⟨piece, hget, hcol, htoq, hkind⟩ := validate_normal_elim (validate_move_standard_elim hval)
  obtain ⟨hnoK, hKv⟩ := hdest
  have hfr : m.fromSq.inRange := hrange m.fromSq (by simp [Move.positions])
  have htr : m.toSq.inRange := hrange m.toSq (by simp [Move.positions])
  have hfv : m.fromSq.isValid = true := Board.isValid_of_get_some hWF hfr hget
  have hwkv : s.white_king_pos.isValid = true := kingsOK_wkp_valid hWF hOK
  have hbkv : s.black_king_pos.isValid = true := kingsOK_bkp_valid hWF hOK
  have hboard : (s.make_move (.Standard m)).board =
      (s.board.set_piece m.toSq (s.board.get_piece m.fromSq)).set_piece m.fromSq none := by
    simp [State.make_move, make_normal_move_eq]
  have hwk_ne_to : s.white_king_pos ≠ m.toSq := by
    intro h
    exact isKingAt_false_elim hnoK .White (h ▸ hOK.1)
  have hbk_ne_to : s.black_king_pos ≠ m.toSq := by
    intro h
    exact isKingAt_false_elim hnoK .Black (h ▸ hOK.2.1)
  cases piece with
  | mk c k =>
    have hc0 : c = s.player := hcol
    have hne : m.fromSq ≠ m.toSq := fun h => htoq _ (h ▸ hget) hcol
    by_cases hk : k = PieceType.King
    · subst hk
      have hKing : isKingAt s.board m.fromSq = true := by
        unfold isKingAt
        rw [hget]
      have htv : m.toSq.isValid = true := hKv hKing
      have hg_to : (s.make_move (.Standard m)).board.get_piece m.toSq = some ⟨c, .King⟩ := by
        rw [hboard, normal_get_to hWF hfv htv (Ne.symm hne), hget]
      cases hp : s.player with
      | White =>
        have hc : c = .White := hc0.trans hp
        subst hc
        have hfrom_wkp : m.fromSq = s.white_king_pos :=
          (hOK.2.2 m.fromSq (mem_allPositions.mpr hfv)).1 hget
        have hbk_ne_from : s.black_king_pos ≠ m.fromSq := by
          intro h
          have hx := h ▸ hOK.2.1
          rw [hget] at hx
          simp at hx
        have hwkp' : (s.make_move (.Standard m)).white_king_pos = m.toSq := by
          simp [State.make_move, make_normal_move_eq, hget, hp]
        have hbkp' : (s.make_move (.Standard m)).black_king_pos = s.black_king_pos := by
          simp [State.make_move, make_normal_move_eq, hget, hp]
        refine kingsOK_move_white s _ m.toSq hOK hwkp' hbkp' hg_to ?_ ?_
        · rw [hboard,
            normal_get_other hWF hfv htr (Position.inRange_of_isValid hbkv) hbk_ne_from
              hbk_ne_to]
          exact hOK.2.1
        · intro p hp' hpn
          by_cases hpf : p = m.fromSq
          · right
            intro c' k' hkk
            rw [hpf, hboard, normal_get_from hWF hfv] at hkk
            cases hkk
          · left
            refine ⟨?_, ?_⟩
            · rw [hboard]
              exact normal_get_other hWF hfv htr
                (Position.inRange_of_isValid (mem_allPositions.mp hp')) hpf hpn _
            · rw [← hfrom_wkp]
              exact hpf
      | Black =>
        have hc : c = .Black := hc0.trans hp
        subst hc
        have hfrom_bkp : m.fromSq = s.black_king_pos :=
          (hOK.2.2 m.fromSq (mem_allPositions.mpr hfv)).2 hget
        have hwk_ne_from : s.white_king_pos ≠ m.fromSq := by
          intro h
          have hx := h ▸ hOK.1
          rw [hget] at hx
          simp at hx
        have hwkp' : (s.make_move (.Standard m)).white_king_pos = s.white_king_pos := by
          simp [State.make_move, make_normal_move_eq, hget, hp]
        have hbkp' : (s.make_move (.Standard m)).black_king_pos = m.toSq := by
          simp [State.make_move, make_normal_move_eq, hget, hp]
        refine kingsOK_move_black s _ m.toSq hOK hwkp' hbkp' ?_ hg_to ?_
        · rw [hboard,
            normal_get_other hWF hfv htr (Position.inRange_of_isValid hwkv) hwk_ne_from
              hwk_ne_to]
          exact hOK.1
        · intro p hp' hpn
          by_cases hpf : p = m.fromSq
          · right
            intro c' k' hkk
            rw [hpf, hboard, normal_get_from hWF hfv] at hkk
            cases hkk
          · left
            refine ⟨?_, ?_⟩
            · rw [hboard]
              exact normal_get_other hWF hfv htr
                (Position.inRange_of_isValid (mem_allPositions.mp hp')) hpf hpn _
            · rw [← hfrom_bkp]
              exact hpf
    · have hwk_ne_from : s.white_king_pos ≠ m.fromSq := by
        intro h
        have hx := h ▸ hOK.1
        rw [hget] at hx
        have hx2 : k = PieceType.King := congrArg Piece.kind (Option.some.inj hx)
        exact hk hx2
      have hbk_ne_from : s.black_king_pos ≠ m.fromSq := by
        intro h
        have hx := h ▸ hOK.2.1
        rw [hget] at hx
        have hx2 : k = PieceType.King := congrArg Piece.kind (Option.some.inj hx)
        exact hk hx2
      have hwkp' : (s.make_move (.Standard m)).white_king_pos = s.white_king_pos := by
        cases k
        case King => exact absurd rfl hk
        all_goals simp [State.make_move, make_normal_move_eq, hget]
      have hbkp' : (s.make_move (.Standard m)).black_king_pos = s.black_king_pos := by
        cases k
        case King => exact absurd rfl hk
        all_goals simp [State.make_move, make_normal_move_eq, hget]
      refine kingsOK_preserve s _ hOK hwkp' hbkp' ?_ ?_ ?_
      · rw [hboard,
          normal_get_other hWF hfv htr (Position.inRange_of_isValid hwkv) hwk_ne_from
            hwk_ne_to]
        exact hOK.1
      · rw [hboard,
          normal_get_other hWF hfv htr (Position.inRange_of_isValid hbkv) hbk_ne_from
            hbk_ne_to]
        exact hOK.2.1
      · intro p hp'
        by_cases hpf : p = m.fromSq
        · right
          intro c' k' hkk
          rw [hpf, hboard, normal_get_from hWF hfv] at hkk
          cases hkk
        · by_cases hpt : p = m.toSq
          · right
            intro c' k' hkk
            have htv : m.toSq.isValid = true := by
              rw [← hpt]
              exact mem_allPositions.mp hp'
            rw [hpt, hboard, normal_get_to hWF hfv htv (Ne.symm hne), hget] at hkk
            intro hkK
            apply hk
            have hkk2 : k = k' := congrArg Piece.kind (Option.some.inj hkk)
            rw [hkk2, hkK]
          · left
            rw [hboard]
            exact normal_get_other hWF hfv htr
              (Position.inRange_of_isValid (mem_allPositions.mp hp')) hpf hpt _

theorem validate_double_elim {s : State} {m : PawnDoubleAdvanceMove}
    (h : s.validate_double_advance_move m = true) :
    s.board.get_piece m.fromSq = some ⟨s.player, .Pawn⟩ ∧
      s.board.get_piece m.toSq = none ∧
      m.toSq.y = m.fromSq.y ∧ (m.toSq.x = 3 ∨ m.toSq.x = 4) := by
  unfold State.validate_double_advance_move at h
  cases hp : s.player <;> rw [hp] at h <;> dsimp only at h <;>
    simp only [Bool.and_eq_true, decide_eq_true_eq] at h <;>
    obtain ⟨⟨⟨⟨hstart, hto⟩, hpawn⟩, _⟩, hempty⟩ := h
  · refine ⟨is_position_piece_elim hpawn,
      is_position_empty_elim hempty, by rw [hto], ?_⟩
    left
    rw [hto]
    dsimp only
    omega
  · refine ⟨is_position_piece_elim hpawn,
      is_position_empty_elim hempty, by rw [hto], ?_⟩
    right
    rw [hto]
    dsimp only
    omega

theorem c9_double (s : State) (m : PawnDoubleAdvanceMove) (hWF : s.board.WF)
    (hOK : kingsOK s) (hrange : (Move.PawnDoubleAdvance m).inRange)
    (hval : s.validate_move (.PawnDoubleAdvance m) = true) :
    kingsOK (s.make_move (.PawnDoubleAdvance m)) := by
  obtain ⟨hgetf, hgett, hty, htx⟩ := validate_double_elim (validate_move_double_elim hval)
  have hfr : m.fromSq.inRange := hrange m.fromSq (by simp [Move.positions])
  have hfv : m.fromSq.isValid = true := Board.isValid_of_get_some hWF hfr hgetf
  have htv : m.toSq.isValid = true := by
    rw [Position.isValid_iff] at hfv ⊢
    obtain ⟨h1, h2, h3, h4⟩ := hfv
    rcases htx with hx | hx <;> exact ⟨by omega, by omega, by omega, by omega⟩
  have hne : m.fromSq ≠ m.toSq := by
    intro h
    have hx := h ▸ hgetf
    rw [hgett] at hx
    cases hx
  have hwkv : s.white_king_pos.isValid = true := kingsOK_wkp_valid hWF hOK
  have hbkv : s.black_king_pos.isValid = true := kingsOK_bkp_valid hWF hOK
  have hboard : (s.make_move (.PawnDoubleAdvance m)).board =
      (s.board.set_piece m.toSq (s.board.get_piece m.fromSq)).set_piece m.fromSq none := by
    simp [State.make_move, make_double_advance_move_eq]
  have hwkp' : (s.make_move (.PawnDoubleAdvance m)).white_king_pos = s.white_king_pos := by
    simp [State.make_move, make_double_advance_move_eq]
  have hbkp' : (s.make_move (.PawnDoubleAdvance m)).black_king_pos = s.black_king_pos := by
    simp [State.make_move, make_double_advance_move_eq]
  have hwk_ne_from : s.white_king_pos ≠ m.fromSq := by
    intro h
    have hx := h ▸ hOK.1
    rw [hgetf] at hx
    simp at hx
  have hbk_ne_from : s.black_king_pos ≠ m.fromSq := by
    intro h
    have hx := h ▸ hOK.2.1
    rw [hgetf] at hx
    simp at hx
  have hwk_ne_to : s.white_king_pos ≠ m.toSq := by
    intro h
    have hx := h ▸ hOK.1
    rw [hgett] at hx
    cases hx
  have hbk_ne_to : s.black_king_pos ≠ m.toSq := by
    intro h
    have hx := h ▸ hOK.2.1
    rw [hgett] at hx
    cases hx
  refine kingsOK_preserve s _ hOK hwkp' hbkp' ?_ ?_ ?_
  · rw [hboard,
      normal_get_other hWF hfv (Position.inRange_of_isValid htv)
        (Position.inRange_of_isValid hwkv) hwk_ne_from hwk_ne_to]
    exact hOK.1
  · rw [hboard,
      normal_get_other hWF hfv (Position.inRange_of_isValid htv)
        (Position.inRange_of_isValid hbkv) hbk_ne_from hbk_ne_to]
    exact hOK.2.1
  · intro p hp'
    by_cases hpf : p = m.fromSq
    · right
      intro c' k' hkk
      rw [hpf, hboard, normal_get_from hWF hfv] at hkk
      cases hkk
    · by_cases hpt : p = m.toSq
      · right
        intro c' k' hkk
        rw [hpt, hboard, normal_get_to hWF hfv htv (Ne.symm hne), hgetf] at hkk
        have hkk2 : PieceType.Pawn = k' := congrArg Piece.kind (Option.some.inj hkk)
        intro hkK
        rw [← hkk2] at hkK
        cases hkK
      · left
        rw [hboard]
        exact normal_get_other hWF hfv (Position.inRange_of_isValid htv)
          (Position.inRange_of_isValid (mem_allPositions.mp hp')) hpf hpt _

theorem validate_ep_elim {s : State} {m : PawnEnPassantMove}
    (h : s.validate_en_passant_move m = true) :
    s.board.get_piece m.toSq = none ∧
      s.board.get_piece ⟨m.fromSq.x, m.toSq.y⟩ = some ⟨s.opponent, .Pawn⟩ ∧
      s.board.get_piece m.fromSq = some ⟨s.player, .Pawn⟩ ∧
      m.fromSq.x ≠ m.toSq.x := by
  unfold State.validate_en_passant_move at h
  by_cases hc : (!s.board.is_position_empty m.toSq ||
      !s.board.is_position_piece ⟨m.fromSq.x, m.toSq.y⟩ ⟨s.opponent, .Pawn⟩) = true
  · rw [if_pos hc] at h
    cases h
  · rw [if_neg hc] at h
    have hempty : s.board.is_position_empty m.toSq = true := by
      by_contra hx
      apply hc
      rw [bool_false_of_not_true hx]
      simp
    have hcapP : s.board.is_position_piece ⟨m.fromSq.x, m.toSq.y⟩ ⟨s.opponent, .Pawn⟩
        = true := by
      by_contra hx
      apply hc
      rw [bool_false_of_not_true hx]
      simp
    cases hgf : s.board.get_piece m.fromSq with
    | none => rw [hgf] at h; cases h
    | some piece =>
      rw [hgf] at h
      dsimp only at h
      by_cases hpp : piece = (⟨s.player, .Pawn⟩ : Piece)
      · rw [if_pos hpp] at h
        cases hep : s.en_passant with
        | none => rw [hep] at h; cases h
        | some pos =>
          rw [hep] at h
          dsimp only at h
          by_cases hto : m.toSq = pos
          · rw [if_pos hto] at h
            by_cases hfile : m.fromSq.y ≠ pos.y + 1 ∧ m.fromSq.y ≠ pos.y - 1
            · rw [if_pos hfile] at h
              cases h
            · rw [if_neg hfile] at h
              refine ⟨is_position_empty_elim hempty, is_position_piece_elim hcapP,
                by rw [hpp], ?_⟩
              cases hp : s.player <;> rw [hp] at h <;>
                simp only [decide_eq_true_eq] at h <;> rw [hto] <;> omega
          · rw [if_neg hto] at h
            cases h
      · rw [if_neg hpp] at h
        cases h

theorem c9_ep (s : State) (m : PawnEnPassantMove) (hWF : s.board.WF)
    (hOK : kingsOK s) (hrange : (Move.PawnEnPassant m).inRange)
    (hval : s.validate_move (.PawnEnPassant m) = true) :
    kingsOK (s.make_move (.PawnEnPassant m)) := by
  obtain ⟨hgett, hgetc, hgetf, hx⟩ := validate_ep_elim (validate_move_ep_elim hval)
  have hfr : m.fromSq.inRange := hrange m.fromSq (by simp [Move.positions])
  have htr : m.toSq.inRange := hrange m.toSq (by simp [Move.positions])
  have hcr : (⟨m.fromSq.x, m.toSq.y⟩ : Position).inRange :=
    ⟨hfr.1, hfr.2.1, htr.2.2.1, htr.2.2.2⟩
  have hfv : m.fromSq.isValid = true := Board.isValid_of_get_some hWF hfr hgetf
  have hcv : (⟨m.fromSq.x, m.toSq.y⟩ : Position).isValid = true :=
    Board.isValid_of_get_some hWF hcr hgetc
  have hne_tf : m.toSq ≠ m.fromSq := fun h => hx (congrArg Position.x h).symm
  have hne_tc : m.toSq ≠ (⟨m.fromSq.x, m.toSq.y⟩ : Position) :=
    fun h => hx (congrArg Position.x h).symm
  have hWF2 :
      ((s.board.set_piece m.toSq (s.board.get_piece m.fromSq)).set_piece m.fromSq none).WF :=
    Board.WF_set (Board.WF_set hWF _ _) _ _
  have hboard : (s.make_move (.PawnEnPassant m)).board =
      ((s.board.set_piece m.toSq (s.board.get_piece m.fromSq)).set_piece m.fromSq
        none).set_piece ⟨m.fromSq.x, m.toSq.y⟩ none := by
    simp [State.make_move, make_en_passant_move_eq]
  have hwkp' : (s.make_move (.PawnEnPassant m)).white_king_pos = s.white_king_pos := by
    simp [State.make_move, make_en_passant_move_eq]
  have hbkp' : (s.make_move (.PawnEnPassant m)).black_king_pos = s.black_king_pos := by
    simp [State.make_move, make_en_passant_move_eq]
  have hwkv : s.white_king_pos.isValid = true := kingsOK_wkp_valid hWF hOK
  have hbkv : s.black_king_pos.isValid = true := kingsOK_bkp_valid hWF hOK
  have hking_ne :
      ∀ q : Position, s.board.get_piece q = some ⟨.White, .King⟩ ∨
          s.board.get_piece q = some ⟨.Black, .King⟩ →
        q ≠ m.fromSq ∧ q ≠ m.toSq ∧ q ≠ (⟨m.fromSq.x, m.toSq.y⟩ : Position) := by
    intro q hq
    refine ⟨?_, ?_, ?_⟩ <;> intro h <;> rcases hq with hq | hq <;> rw [h] at hq
    · rw [hgetf] at hq; simp at hq
    · rw [hgetf] at hq; simp at hq
    · rw [hgett] at hq; cases hq
    · rw [hgett] at hq; cases hq
    · rw [hgetc] at hq; simp at hq
    · rw [hgetc] at hq; simp at hq
  obtain ⟨hwf1, hwt1, hwc1⟩ := hking_ne s.white_king_pos (Or.inl hOK.1)
  obtain ⟨hbf1, hbt1, hbc1⟩ := hking_ne s.black_king_pos (Or.inr hOK.2.1)
  refine kingsOK_preserve s _ hOK hwkp' hbkp' ?_ ?_ ?_
  · rw [hboard, Board.get_set_ne hWF2 hcv (Position.inRange_of_isValid hwkv) hwc1,
      normal_get_other hWF hfv htr (Position.inRange_of_isValid hwkv) hwf1 hwt1]
    exact hOK.1
  · rw [hboard, Board.get_set_ne hWF2 hcv (Position.inRange_of_isValid hbkv) hbc1,
      normal_get_other hWF hfv htr (Position.inRange_of_isValid hbkv) hbf1 hbt1]
    exact hOK.2.1
  · intro p hp'
    have hpr : p.inRange := Position.inRange_of_isValid (mem_allPositions.mp hp')
    by_cases hpc : p = (⟨m.fromSq.x, m.toSq.y⟩ : Position)
    · right
      intro c' k' hkk
      rw [hpc, hboard, Board.get_set_same hWF2 hcv] at hkk
      cases hkk
    · by_cases hpf : p = m.fromSq
      · right
        intro c' k' hkk
        rw [hpf] at hpc
        rw [hpf, hboard, Board.get_set_ne hWF2 hcv (Position.inRange_of_isValid hfv) hpc,
          normal_get_from hWF hfv] at hkk
        cases hkk
      · by_cases hpt : p = m.toSq
        · right
          intro c' k' hkk
          have htv : m.toSq.isValid = true := by
            rw [← hpt]
            exact mem_allPositions.mp hp'
          rw [hpt] at hpc
          rw [hpt, hboard,
            Board.get_set_ne hWF2 hcv (Position.inRange_of_isValid htv) hpc,
            normal_get_to hWF hfv htv hne_tf, hgetf] at hkk
          have hkk2 : PieceType.Pawn = k' := congrArg Piece.kind (Option.some.inj hkk)
          intro hkK
          rw [← hkk2] at hkK
          cases hkK
        · left
          rw [hboard, Board.get_set_ne hWF2 hcv hpr hpc,
            normal_get_other hWF hfv htr hpr hpf hpt]

theorem validate_promotion_elim {s : State} {m : PawnPromotionMove}
    (h : s.validate_promotion_move m = true) :
    m.pawn.fromSq.isValid = true ∧ m.pawn.toSq.isValid = true ∧
      m.pawn.fromSq ≠ m.pawn.toSq ∧ m.promotion.kind ≠ .King ∧
      s.board.get_piece m.pawn.fromSq = some ⟨s.player, .Pawn⟩ := by
  unfold State.validate_promotion_move at h
  simp only [Bool.and_eq_true, decide_eq_true_eq] at h
  obtain ⟨⟨⟨⟨⟨⟨hfv, htv⟩, hne⟩, hcol⟩, hkind⟩, hpiece⟩, _⟩ := h
  refine ⟨hfv, htv, hne, ?_, is_position_piece_elim hpiece⟩
  intro hkK
  rw [hkK] at hkind
  simp at hkind

theorem c9_promo (s : State) (m : PawnPromotionMove) (hWF : s.board.WF) (hOK : kingsOK s)
    (hdest : moveDestSafe s (.PawnPromotion m))
    (hval : s.validate_move (.PawnPromotion m) = true) :
    kingsOK (s.make_move (.PawnPromotion m)) := by
  obtain ⟨hfv, htv, hne, hkK, hgetf⟩ :=
    validate_promotion_elim (validate_move_promotion_elim hval)
  have hnoK : isKingAt s.board m.pawn.toSq = false := hdest
  have hWF1 : (s.board.set_piece m.pawn.fromSq (some m.promotion)).WF := Board.WF_set hWF _ _
  have hg1 : (s.board.set_piece m.pawn.fromSq (some m.promotion)).get_piece m.pawn.fromSq =
      some m.promotion := Board.get_set_same hWF hfv _
  have hboard : (s.make_move (.PawnPromotion m)).board =
      ((s.board.set_piece m.pawn.fromSq (some m.promotion)).set_piece m.pawn.toSq
        ((s.board.set_piece m.pawn.fromSq (some m.promotion)).get_piece
          m.pawn.fromSq)).set_piece m.pawn.fromSq none := by
    simp [State.make_move, make_promotion_move_eq, make_normal_move_eq]
  have hwkv : s.white_king_pos.isValid = true := kingsOK_wkp_valid hWF hOK
  have hbkv : s.black_king_pos.isValid = true := kingsOK_bkp_valid hWF hOK
  have hwk_ne_f : s.white_king_pos ≠ m.pawn.fromSq := by
    intro h
    have hx := h ▸ hOK.1
    rw [hgetf] at hx
    simp at hx
  have hbk_ne_f : s.black_king_pos ≠ m.pawn.fromSq := by
    intro h
    have hx := h ▸ hOK.2.1
    rw [hgetf] at hx
    simp at hx
  have hwk_ne_t : s.white_king_pos ≠ m.pawn.toSq := by
    intro h
    exact isKingAt_false_elim hnoK .White (h ▸ hOK.1)
  have hbk_ne_t : s.black_king_pos ≠ m.pawn.toSq := by
    intro h
    exact isKingAt_false_elim hnoK .Black (h ▸ hOK.2.1)
  cases hpromo : m.promotion with
  | mk pc pk =>
    have hpkK : pk ≠ PieceType.King := by
      rw [hpromo] at hkK
      exact hkK
    rw [hpromo] at hg1 hboard hWF1
    have hwkp' : (s.make_move (.PawnPromotion m)).white_king_pos = s.white_king_pos := by
      cases pk
      case King => exact absurd rfl hpkK
      all_goals simp [State.make_move, make_promotion_move_eq, make_normal_move_eq,
        hpromo, hg1]
    have hbkp' : (s.make_move (.PawnPromotion m)).black_king_pos = s.black_king_pos := by
      cases pk
      case King => exact absurd rfl hpkK
      all_goals simp [State.make_move, make_promotion_move_eq, make_normal_move_eq,
        hpromo, hg1]
    refine kingsOK_preserve s _ hOK hwkp' hbkp' ?_ ?_ ?_
    · rw [hboard,
        normal_get_other hWF1 hfv (Position.inRange_of_isValid htv)
          (Position.inRange_of_isValid hwkv) hwk_ne_f hwk_ne_t,
        Board.get_set_ne hWF hfv (Position.inRange_of_isValid hwkv) hwk_ne_f]
      exact hOK.1
    · rw [hboard,
        normal_get_other hWF1 hfv (Position.inRange_of_isValid htv)
          (Position.inRange_of_isValid hbkv) hbk_ne_f hbk_ne_t,
        Board.get_set_ne hWF hfv (Position.inRange_of_isValid hbkv) hbk_ne_f]
      exact hOK.2.1
    · intro p hp'
      have hpr : p.inRange := Position.inRange_of_isValid (mem_allPositions.mp hp')
      by_cases hpf : p = m.pawn.fromSq
      · right
        intro c' k' hkk
        rw [hpf, hboard, normal_get_from hWF1 hfv] at hkk
        cases hkk
      · by_cases hpt : p = m.pawn.toSq
        · right
          intro c' k' hkk
          rw [hpt, hboard, normal_get_to hWF1 hfv htv (Ne.symm hne), hg1] at hkk
          have hkk2 : pk = k' := congrArg Piece.kind (Option.some.inj hkk)
          intro hkKk
          rw [hkKk] at hkk2
          exact hpkK hkk2
        · left
          rw [hboard, normal_get_other hWF1 hfv (Position.inRange_of_isValid htv) hpr hpf hpt,
            Board.get_set_ne hWF hfv hpr hpf]

/-! ### Reads through the four-write board transform of castling -/

theorem castle4_get_other {b : Board} (hWF : b.WF) {ke ks pt rs p : Position}
    (hke : ke.isValid = true) (hks : ks.isValid = true) (hpt : pt.isValid = true)
    (hrs : rs.isValid = true) (hp : p.inRange)
    (h1 : p ≠ ke) (h2 : p ≠ ks) (h3 : p ≠ pt) (h4 : p ≠ rs) (ck cr : Option Piece) :
    ((((b.set_piece ke ck).set_piece ks none).set_piece pt cr).set_piece rs
        none).get_piece p = b.get_piece p := by
  rw [Board.get_set_ne (Board.WF_set (Board.WF_set (Board.WF_set hWF _ _) _ _) _ _) hrs hp h4,
    Board.get_set_ne (Board.WF_set (Board.WF_set hWF _ _) _ _) hpt hp h3,
    Board.get_set_ne (Board.WF_set hWF _ _) hks hp h2,
    Board.get_set_ne hWF hke hp h1]

theorem castle4_get_ke {b : Board} (hWF : b.WF) {ke ks pt rs : Position}
    (hke : ke.isValid = true) (hks : ks.isValid = true) (hpt : pt.isValid = true)
    (hrs : rs.isValid = true)
    (h1 : ke ≠ ks) (h2 : ke ≠ pt) (h3 : ke ≠ rs) (ck cr : Option Piece) :
    ((((b.set_piece ke ck).set_piece ks none).set_piece pt cr).set_piece rs
        none).get_piece ke = ck := by
  rw [Board.get_set_ne (Board.WF_set (Board.WF_set (Board.WF_set hWF _ _) _ _) _ _) hrs
      (Position.inRange_of_isValid hke) h3,
    Board.get_set_ne (Board.WF_set (Board.WF_set hWF _ _) _ _) hpt
      (Position.inRange_of_isValid hke) h2,
    Board.get_set_ne (Board.WF_set hWF _ _) hks (Position.inRange_of_isValid hke) h1,
    Board.get_set_same hWF hke]

theorem castle4_get_ks {b : Board} (hWF : b.WF) {ke ks pt rs : Position}
    (hks : ks.isValid = true) (hpt : pt.isValid = true) (hrs : rs.isValid = true)
    (h1 : ks ≠ pt) (h2 : ks ≠ rs) (ck cr : Option Piece) :
    ((((b.set_piece ke ck).set_piece ks none).set_piece pt cr).set_piece rs
        none).get_piece ks = none := by
  rw [Board.get_set_ne (Board.WF_set (Board.WF_set (Board.WF_set hWF _ _) _ _) _ _) hrs
      (Position.inRange_of_isValid hks) h2,
    Board.get_set_ne (Board.WF_set (Board.WF_set hWF _ _) _ _) hpt
      (Position.inRange_of_isValid hks) h1,
    Board.get_set_same (Board.WF_set hWF _ _) hks]

theorem castle4_get_pt {b : Board} (hWF : b.WF) {ke ks pt rs : Position}
    (hpt : pt.isValid = true) (hrs : rs.isValid = true)
    (h1 : pt ≠ rs) (ck cr : Option Piece) :
    ((((b.set_piece ke ck).set_piece ks none).set_piece pt cr).set_piece rs
        none).get_piece pt = cr := by
  rw [Board.get_set_ne (Board.WF_set (Board.WF_set (Board.WF_set hWF _ _) _ _) _ _) hrs
      (Position.inRange_of_isValid hpt) h1,
    Board.get_set_same (Board.WF_set (Board.WF_set hWF _ _) _ _) hpt]

theorem castle4_get_rs {b : Board} (hWF : b.WF) {ke ks pt rs : Position}
    (hrs : rs.isValid = true) (ck cr : Option Piece) :
    ((((b.set_piece ke ck).set_piece ks none).set_piece pt cr).set_piece rs
        none).get_piece rs = none :=
  Board.get_set_same (Board.WF_set (Board.WF_set (Board.WF_set hWF _ _) _ _) _ _) hrs none

theorem c9_castle_wk (s : State) (hWF : s.board.WF) (hOK : kingsOK s)
    (hpl : s.player = .White)
    (hgk : s.board.get_piece ⟨0, 4⟩ = some ⟨.White, .King⟩)
    (hgr : s.board.get_piece ⟨0, 7⟩ = some ⟨.White, .Rook⟩)
    (hg5 : s.board.get_piece ⟨0, 5⟩ = none)
    (hg6 : s.board.get_piece ⟨0, 6⟩ = none) :
    kingsOK (s.make_move (.Castling .WhiteKing)) := by
  have hwkp_eq : (⟨0, 4⟩ : Position) = s.white_king_pos :=
    (hOK.2.2 ⟨0, 4⟩ (mem_allPositions.mpr (by decide))).1 hgk
  have hbkv : s.black_king_pos.isValid = true := kingsOK_bkp_valid hWF hOK
  have hb4 : s.black_king_pos ≠ (⟨0, 4⟩ : Position) := by
    intro h; have hx := h ▸ hOK.2.1; rw [hgk] at hx; simp at hx
  have hb7 : s.black_king_pos ≠ (⟨0, 7⟩ : Position) := by
    intro h; have hx := h ▸ hOK.2.1; rw [hgr] at hx; simp at hx
  have hb5 : s.black_king_pos ≠ (⟨0, 5⟩ : Position) := by
    intro h; have hx := h ▸ hOK.2.1; rw [hg5] at hx; cases hx
  have hb6 : s.black_king_pos ≠ (⟨0, 6⟩ : Position) := by
    intro h; have hx := h ▸ hOK.2.1; rw [hg6] at hx; cases hx
  have hboard : (s.make_move (.Castling .WhiteKing)).board =
      (((s.board.set_piece ⟨0, 6⟩ (some ⟨.White, .King⟩)).set_piece ⟨0, 4⟩
        none).set_piece ⟨0, 5⟩ (some ⟨.White, .Rook⟩)).set_piece ⟨0, 7⟩ none := by
    simp [State.make_move, make_castling_move_eq, castleData]
  have hwkp' : (s.make_move (.Castling .WhiteKing)).white_king_pos = ⟨0, 6⟩ := by
    simp [State.make_move, make_castling_move_eq, castleData, hpl]
  have hbkp' :
      (s.make_move (.Castling .WhiteKing)).black_king_pos = s.black_king_pos := by
    simp [State.make_move, make_castling_move_eq, castleData, hpl]
  refine kingsOK_move_white s _ ⟨0, 6⟩ hOK hwkp' hbkp' ?_ ?_ ?_
  · rw [hboard, castle4_get_ke hWF (by decide) (by decide) (by decide) (by decide)
      (by decide) (by decide) (by decide)]
  · rw [hboard, castle4_get_other hWF (by decide) (by decide) (by decide) (by decide)
      (Position.inRange_of_isValid hbkv) hb6 hb4 hb5 hb7]
    exact hOK.2.1
  · intro p hp' hpn
    have hpv : p.isValid = true := mem_allPositions.mp hp'
    by_cases h4 : p = (⟨0, 4⟩ : Position)
    · right
      intro c' k' hkk
      rw [h4, hboard, castle4_get_ks hWF (by decide) (by decide) (by decide) (by decide)
        (by decide)] at hkk
      cases hkk
    · by_cases h5 : p = (⟨0, 5⟩ : Position)
      · right
        intro c' k' hkk
        rw [h5, hboard, castle4_get_pt hWF (by decide) (by decide) (by decide)] at hkk
        have hkk2 : PieceType.Rook = k' := congrArg Piece.kind (Option.some.inj hkk)
        intro hkK
        rw [← hkk2] at hkK
        cases hkK
      · by_cases h7 : p = (⟨0, 7⟩ : Position)
        · right
          intro c' k' hkk
          rw [h7, hboard, castle4_get_rs hWF (by decide)] at hkk
          cases hkk
        · left
          refine ⟨?_, ?_⟩
          · rw [hboard]
            exact castle4_get_other hWF (by decide) (by decide) (by decide) (by decide)
              (Position.inRange_of_isValid hpv) hpn h4 h5 h7 _ _
          · rw [← hwkp_eq]
            exact h4

theorem c9_castle_wq (s : State) (hWF : s.board.WF) (hOK : kingsOK s)
    (hpl : s.player = .White)
    (hgk : s.board.get_piece ⟨0, 4⟩ = some ⟨.White, .King⟩)
    (hgr : s.board.get_piece ⟨0, 0⟩ = some ⟨.White, .Rook⟩)
    (hg3 : s.board.get_piece ⟨0, 3⟩ = none)
    (hg2 : s.board.get_piece ⟨0, 2⟩ = none) :
    kingsOK (s.make_move (.Castling .WhiteQueen)) := by
  have hwkp_eq : (⟨0, 4⟩ : Position) = s.white_king_pos :=
    (hOK.2.2 ⟨0, 4⟩ (mem_allPositions.mpr (by decide))).1 hgk
  have hbkv : s.black_king_pos.isValid = true := kingsOK_bkp_valid hWF hOK
  have hb4 : s.black_king_pos ≠ (⟨0, 4⟩ : Position) := by
    intro h; have hx := h ▸ hOK.2.1; rw [hgk] at hx; simp at hx
  have hb0 : s.black_king_pos ≠ (⟨0, 0⟩ : Position) := by
    intro h; have hx := h ▸ hOK.2.1; rw [hgr] at hx; simp at hx
  have hb3 : s.black_king_pos ≠ (⟨0, 3⟩ : Position) := by
    intro h; have hx := h ▸ hOK.2.1; rw [hg3] at hx; cases hx
  have hb2 : s.black_king_pos ≠ (⟨0, 2⟩ : Position) := by
    intro h; have hx := h ▸ hOK.2.1; rw [hg2] at hx; cases hx
  have hboard : (s.make_move (.Castling .WhiteQueen)).board =
      (((s.board.set_piece ⟨0, 2⟩ (some ⟨.White, .King⟩)).set_piece ⟨0, 4⟩
        none).set_piece ⟨0, 3⟩ (some ⟨.White, .Rook⟩)).set_piece ⟨0, 0⟩ none := by
    simp [State.make_move, make_castling_move_eq, castleData]
  have hwkp' : (s.make_move (.Castling .WhiteQueen)).white_king_pos = ⟨0, 2⟩ := by
    simp [State.make_move, make_castling_move_eq, castleData, hpl]
  have hbkp' :
      (s.make_move (.Castling .WhiteQueen)).black_king_pos = s.black_king_pos := by
    simp [State.make_move, make_castling_move_eq, castleData, hpl]
  refine kingsOK_move_white s _ ⟨0, 2⟩ hOK hwkp' hbkp' ?_ ?_ ?_
  · rw [hboard, castle4_get_ke hWF (by decide) (by decide) (by decide) (by decide)
      (by decide) (by decide) (by decide)]
  · rw [hboard, castle4_get_other hWF (by decide) (by decide) (by decide) (by decide)
      (Position.inRange_of_isValid hbkv) hb2 hb4 hb3 hb0]
    exact hOK.2.1
  · intro p hp' hpn
    have hpv : p.isValid = true := mem_allPositions.mp hp'
    by_cases h4 : p = (⟨0, 4⟩ : Position)
    · right
      intro c' k' hkk
      rw [h4, hboard, castle4_get_ks hWF (by decide) (by decide) (by decide) (by decide)
        (by decide)] at hkk
      cases hkk
    · by_cases h3 : p = (⟨0, 3⟩ : Position)
      · right
        intro c' k' hkk
        rw [h3, hboard, castle4_get_pt hWF (by decide) (by decide) (by decide)] at hkk
        have hkk2 : PieceType.Rook = k' := congrArg Piece.kind (Option.some.inj hkk)
        intro hkK
        rw [← hkk2] at hkK
        cases hkK
      · by_cases h0 : p = (⟨0, 0⟩ : Position)
        · right
          intro c' k' hkk
          rw [h0, hboard, castle4_get_rs hWF (by decide)] at hkk
          cases hkk
        · left
          refine ⟨?_, ?_⟩
          · rw [hboard]
            exact castle4_get_other hWF (by decide) (by decide) (by decide) (by decide)
              (Position.inRange_of_isValid hpv) hpn h4 h3 h0 _ _
          · rw [← hwkp_eq]
            exact h4

theorem c9_castle_bk (s : State) (hWF : s.board.WF) (hOK : kingsOK s)
    (hpl : s.player = .Black)
    (hgk : s.board.get_piece ⟨7, 4⟩ = some ⟨.Black, .King⟩)
    (hgr : s.board.get_piece ⟨7, 7⟩ = some ⟨.Black, .Rook⟩)
    (hg5 : s.board.get_piece ⟨7, 5⟩ = none)
    (hg6 : s.board.get_piece ⟨7, 6⟩ = none) :
    kingsOK (s.make_move (.Castling .BlackKing)) := by
  have hbkp_eq : (⟨7, 4⟩ : Position) = s.black_king_pos :=
    (hOK.2.2 ⟨7, 4⟩ (mem_allPositions.mpr (by decide))).2 hgk
  have hwkv : s.white_king_pos.isValid = true := kingsOK_wkp_valid hWF hOK
  have hw4 : s.white_king_pos ≠ (⟨7, 4⟩ : Position) := by
    intro h; have hx := h ▸ hOK.1; rw [hgk] at hx; simp at hx
  have hw7 : s.white_king_pos ≠ (⟨7, 7⟩ : Position) := by
    intro h; have hx := h ▸ hOK.1; rw [hgr] at hx; simp at hx
  have hw5 : s.white_king_pos ≠ (⟨7, 5⟩ : Position) := by
    intro h; have hx := h ▸ hOK.1; rw [hg5] at hx; cases hx
  have hw6 : s.white_king_pos ≠ (⟨7, 6⟩ : Position) := by
    intro h; have hx := h ▸ hOK.1; rw [hg6] at hx; cases hx
  have hboard : (s.make_move (.Castling .BlackKing)).board =
      (((s.board.set_piece ⟨7, 6⟩ (some ⟨.Black, .King⟩)).set_piece ⟨7, 4⟩
        none).set_piece ⟨7, 5⟩ (some ⟨.Black, .Rook⟩)).set_piece ⟨7, 7⟩ none := by
    simp [State.make_move, make_castling_move_eq, castleData]
  have hwkp' :
      (s.make_move (.Castling .BlackKing)).white_king_pos = s.white_king_pos := by
    simp [State.make_move, make_castling_move_eq, castleData, hpl]
  have hbkp' : (s.make_move (.Castling .BlackKing)).black_king_pos = ⟨7, 6⟩ := by
    simp [State.make_move, make_castling_move_eq, castleData, hpl]
  refine kingsOK_move_black s _ ⟨7, 6⟩ hOK hwkp' hbkp' ?_ ?_ ?_
  · rw [hboard, castle4_get_other hWF (by decide) (by decide) (by decide) (by decide)
      (Position.inRange_of_isValid hwkv) hw6 hw4 hw5 hw7]
    exact hOK.1
  · rw [hboard, castle4_get_ke hWF (by decide) (by decide) (by decide) (by decide)
      (by decide) (by decide) (by decide)]
  · intro p hp' hpn
    have hpv : p.isValid = true := mem_allPositions.mp hp'
    by_cases h4 : p = (⟨7, 4⟩ : Position)
    · right
      intro c' k' hkk
      rw [h4, hboard, castle4_get_ks hWF (by decide) (by decide) (by decide) (by decide)
        (by decide)] at hkk
      cases hkk
    · by_cases h5 : p = (⟨7, 5⟩ : Position)
      · right
        intro c' k' hkk
        rw [h5, hboard, castle4_get_pt hWF (by decide) (by decide) (by decide)] at hkk
        have hkk2 : PieceType.Rook = k' := congrArg Piece.kind (Option.some.inj hkk)
        intro hkK
        rw [← hkk2] at hkK
        cases hkK
      · by_cases h7 : p = (⟨7, 7⟩ : Position)
        · right
          intro c' k' hkk
          rw [h7, hboard, castle4_get_rs hWF (by decide)] at hkk
          cases hkk
        · left
          refine ⟨?_, ?_⟩
          · rw [hboard]
            exact castle4_get_other hWF (by decide) (by decide) (by decide) (by decide)
              (Position.inRange_of_isValid hpv) hpn h4 h5 h7 _ _
          · rw [← hbkp_eq]
            exact h4

theorem c9_castle_bq (s : State) (hWF : s.board.WF) (hOK : kingsOK s)
    (hpl : s.player = .Black)
    (hgk : s.board.get_piece ⟨7, 4⟩ = some ⟨.Black, .King⟩)
    (hgr : s.board.get_piece ⟨7, 0⟩ = some ⟨.Black, .Rook⟩)
    (hg3 : s.board.get_piece ⟨7, 3⟩ = none)
    (hg2 : s.board.get_piece ⟨7, 2⟩ = none) :
    kingsOK (s.make_move (.Castling .BlackQueen)) := by
  have hbkp_eq : (⟨7, 4⟩ : Position) = s.black_king_pos :=
    (hOK.2.2 ⟨7, 4⟩ (mem_allPositions.mpr (by decide))).2 hgk
  have hwkv : s.white_king_pos.isValid = true := kingsOK_wkp_valid hWF hOK
  have hw4 : s.white_king_pos ≠ (⟨7, 4⟩ : Position) := by
    intro h; have hx := h ▸ hOK.1; rw [hgk] at hx; simp at hx
  have hw0 : s.white_king_pos ≠ (⟨7, 0⟩ : Position) := by
    intro h; have hx := h ▸ hOK.1; rw [hgr] at hx; simp at hx
  have hw3 : s.white_king_pos ≠ (⟨7, 3⟩ : Position) := by
    intro h; have hx := h ▸ hOK.1; rw [hg3] at hx; cases hx
  have hw2 : s.white_king_pos ≠ (⟨7, 2⟩ : Position) := by
    intro h; have hx := h ▸ hOK.1; rw [hg2] at hx; cases hx
  have hboard : (s.make_move (.Castling .BlackQueen)).board =
      (((s.board.set_piece ⟨7, 2⟩ (some ⟨.Black, .King⟩)).set_piece ⟨7, 4⟩
        none).set_piece ⟨7, 3⟩ (some ⟨.Black, .Rook⟩)).set_piece ⟨7, 0⟩ none := by
    simp [State.make_move, make_castling_move_eq, castleData]
  have hwkp' :
      (s.make_move (.Castling .BlackQueen)).white_king_pos = s.white_king_pos := by
    simp [State.make_move, make_castling_move_eq, castleData, hpl]
  have hbkp' : (s.make_move (.Castling .BlackQueen)).black_king_pos = ⟨7, 2⟩ := by
    simp [State.make_move, make_castling_move_eq, castleData, hpl]
  refine kingsOK_move_black s _ ⟨7, 2⟩ hOK hwkp' hbkp' ?_ ?_ ?_
  · rw [hboard, castle4_get_other hWF (by decide) (by decide) (by decide) (by decide)
      (Position.inRange_of_isValid hwkv) hw2 hw4 hw3 hw0]
    exact hOK.1
  · rw [hboard, castle4_get_ke hWF (by decide) (by decide) (by decide) (by decide)
      (by decide) (by decide) (by decide)]
  · intro p hp' hpn
    have hpv : p.isValid = true := mem_allPositions.mp hp'
    by_cases h4 : p = (⟨7, 4⟩ : Position)
    · right
      intro c' k' hkk
      rw [h4, hboard, castle4_get_ks hWF (by decide) (by decide) (by decide) (by decide)
        (by decide)] at hkk
      cases hkk
    · by_cases h3 : p = (⟨7, 3⟩ : Position)
      · right
        intro c' k' hkk
        rw [h3, hboard, castle4_get_pt hWF (by decide) (by decide) (by decide)] at hkk
        have hkk2 : PieceType.Rook = k' := congrArg Piece.kind (Option.some.inj hkk)
        intro hkK
        rw [← hkk2] at hkK
        cases hkK
      · by_cases h0 : p = (⟨7, 0⟩ : Position)
        · right
          intro c' k' hkk
          rw [h0, hboard, castle4_get_rs hWF (by decide)] at hkk
          cases hkk
        · left
          refine ⟨?_, ?_⟩
          · rw [hboard]
            exact castle4_get_other hWF (by decide) (by decide) (by decide) (by decide)
              (Position.inRange_of_isValid hpv) hpn h4 h3 h0 _ _
          · rw [← hbkp_eq]
            exact h4

theorem c9_castle (s : State) (cm : CastlingMove) (hWF : s.board.WF) (hOK : kingsOK s)
    (hval : s.validate_move (.Castling cm) = true) :
    kingsOK (s.make_move (.Castling cm)) := by
  have hps := validate_move_castling_elim hval
  cases cm
  case WhiteKing =>
    simp only [State.validate_castling_move, Bool.and_eq_true, decide_eq_true_eq] at hps
    obtain ⟨⟨⟨⟨⟨⟨⟨⟨hpl, _⟩, hk⟩, hrk⟩, he5⟩, he6⟩, _⟩, _⟩, _⟩ := hps
    exact c9_castle_wk s hWF hOK hpl (is_position_piece_elim hk) (is_position_piece_elim hrk)
      (is_position_empty_elim he5) (is_position_empty_elim he6)
  case WhiteQueen =>
    simp only [State.validate_castling_move, Bool.and_eq_true, decide_eq_true_eq] at hps
    obtain ⟨⟨⟨⟨⟨⟨⟨⟨⟨hpl, _⟩, hk⟩, hrk⟩, he3⟩, he2⟩, _⟩, _⟩, _⟩, _⟩ := hps
    exact c9_castle_wq s hWF hOK hpl (is_position_piece_elim hk) (is_position_piece_elim hrk)
      (is_position_empty_elim he3) (is_position_empty_elim he2)
  case BlackKing =>
    simp only [State.validate_castling_move, Bool.and_eq_true, decide_eq_true_eq] at hps
    obtain ⟨⟨⟨⟨⟨⟨⟨⟨hpl, _⟩, hk⟩, hrk⟩, he5⟩, he6⟩, _⟩, _⟩, _⟩ := hps
    exact c9_castle_bk s hWF hOK hpl (is_position_piece_elim hk) (is_position_piece_elim hrk)
      (is_position_empty_elim he5) (is_position_empty_elim he6)
  case BlackQueen =>
    simp only [State.validate_castling_move, Bool.and_eq_true, decide_eq_true_eq] at hps
    obtain ⟨⟨⟨⟨⟨⟨⟨⟨⟨hpl, _⟩, hk⟩, hrk⟩, he3⟩, he2⟩, _⟩, _⟩, _⟩, _⟩ := hps
    exact c9_castle_bq s hWF hOK hpl (is_position_piece_elim hk) (is_position_piece_elim hrk)
      (is_position_empty_elim he3) (is_position_empty_elim he2)

/-! ### Claim C9 — king-position tracking -/

/-- Claim C9, counterexample (two scenarios, each refuting the claim as
stated): (a) a validated rook move captures the black king, after which
`black_king_pos` points at a white rook; (b) `validate_move` accepts the
white king stepping to the off-board square `(-1,4)` (an invalid square is
"empty" and the subsequent check test short-circuits on it), after which
`white_king_pos` points off the board. -/
theorem c9_counterexample :
    (kingsOK c9_capture_state ∧ c9_capture_state.board.WF ∧
        c9_capture_state.validate_move c9_capture_move = true ∧
        ¬kingsOK (c9_capture_state.make_move c9_capture_move)) ∧
      kingsOK c9_offboard_state ∧ c9_offboard_state.board.WF ∧
        c9_offboard_state.validate_move c9_offboard_move = true ∧
        ¬kingsOK (c9_offboard_state.make_move c9_offboard_move) := by
  decide

/-- Claim C9, amended: king-position tracking is preserved by every move
accepted by `validate_move`, provided additionally that the move does not
capture a king and that a king move's destination is on the board (both
automatic in positions reachable by legal play, but not enforced by
`validate_move`, per the counterexample).  The `inRange` hypothesis only
records that the move's coordinates fit in `i8`, as the Rust types
guarantee. -/
theorem c9_king_tracking (s : State) (mv : Move) (hWF : s.board.WF) (hOK : kingsOK s)
    (hrange : mv.inRange) (hdest : moveDestSafe s mv)
    (hval : s.validate_move mv = true) : kingsOK (s.make_move mv) := by
  cases mv with
  | Standard m => exact c9_standard s m hWF hOK hrange hdest hval
  | PawnDoubleAdvance m => exact c9_double s m hWF hOK hrange hval
  | PawnEnPassant m => exact c9_ep s m hWF hOK hrange hval
  | PawnPromotion m => exact c9_promo s m hWF hOK hdest hval
  | Castling m => exact c9_castle s m hWF hOK hval

/-- Witness for `c9_king_tracking`: e2-e4 from the start position. -/
theorem c9_witness : kingsOK (State.new.make_move e2e4) :=
  c9_king_tracking State.new e2e4 (by decide) (by decide) (by decide) (by decide)
    (by decide)

end ChessAI
